import Mathlib

/-!
Shallow embedding of the ai-dev-assistant backend handlers
(rollback_version, create_version, create_file, update_file,
create_project, delete_project, get_session) and proofs of the
frozen claims about them.

The database is modelled as lists of rows; drizzle `select ... where eq`
becomes `List.filter`, `update ... set` becomes `List.map` over matching
rows, `insert` appends, `delete` filters out.  Non-deterministic inputs
(`new Date()`, `randomUUID()`, `Math.random()`) are passed as explicit
parameters.  JavaScript `String.prototype.length` counts UTF-16 code
units (`utf16Len` below) while `Buffer.byteLength(s, "utf8")` counts
UTF-8 bytes (`utf8Len` below); both appear in the source and the
distinction is load-bearing for the size claims.
-/

namespace AiDev

/-- UTF-16 code units of a string, the value of JavaScript `s.length`:
one unit for BMP characters, two for astral ones. -/
def utf16Len (s : String) : Nat :=
  s.data.foldl (fun n c => n + (if c.toNat < 65536 then 1 else 2)) 0

/-- UTF-8 encoding of one character as a list of byte values. -/
def utf8EncodeChar (c : Char) : List Nat :=
  let n := c.toNat
  if n < 128 then [n]
  else if n < 2048 then [192 ||| (n >>> 6), 128 ||| (n &&& 63)]
  else if n < 65536 then
    [224 ||| (n >>> 12), 128 ||| ((n >>> 6) &&& 63), 128 ||| (n &&& 63)]
  else
    [240 ||| (n >>> 18), 128 ||| ((n >>> 12) &&& 63),
     128 ||| ((n >>> 6) &&& 63), 128 ||| (n &&& 63)]

/-- UTF-8 bytes of a string. -/
def utf8Bytes (s : String) : List Nat :=
  s.data.foldr (fun c acc => utf8EncodeChar c ++ acc) []

/-- UTF-8 byte length, the value of `Buffer.byteLength(s, "utf8")`. -/
def utf8Len (s : String) : Nat := (utf8Bytes s).length

/-- JavaScript `a || b` for an optional string `a`: `undefined`/`null`
and the empty string are falsy and yield the fallback. -/
def jsOrStr : Option String → String → String
  | some s, fb => if s.isEmpty then fb else s
  | none, fb => fb

/-- JavaScript truthiness of an optional string, as used by
`if (x)` and `x || null`: `some ""` behaves like `none`. -/
def jsTruthy : Option String → Option String
  | some s => if s.isEmpty then none else some s
  | none => none

/-- JavaScript `s.slice(0, n)` / `s.substring(0, n)` (first `n` UTF-16
units; all strings it is applied to in this codebase are ASCII). -/
def jsTake (s : String) (n : Nat) : String :=
  String.mk (s.data.take n)

/-- JavaScript `s.split(sep).pop()`: the last segment of the split
(the split result is never empty, so `pop` never yields undefined). -/
def jsSplitLast (s sep : String) : String :=
  (s.splitOn sep).getLastD ""

/-! ### SHA-256 (Node `crypto.createHash("sha256")`)

`create_version.ts` derives the commit hash from a SHA-256 hex digest;
the algorithm is implemented here over `Nat` words reduced mod 2^32. -/

/-- Reduce to a 32-bit word. -/
def w32 (n : Nat) : Nat := n % 4294967296

/-- 32-bit modular addition. -/
def wadd (a b : Nat) : Nat := w32 (a + b)

/-- 32-bit right rotation. -/
def rotr (x n : Nat) : Nat := w32 ((x >>> n) ||| (x <<< (32 - n)))

/-- SHA-256 Ch function. -/
def chB (x y z : Nat) : Nat := (x &&& y) ^^^ ((x ^^^ 4294967295) &&& z)

/-- SHA-256 Maj function. -/
def majB (x y z : Nat) : Nat := (x &&& y) ^^^ (x &&& z) ^^^ (y &&& z)

/-- SHA-256 big sigma 0. -/
def bsig0 (x : Nat) : Nat := rotr x 2 ^^^ rotr x 13 ^^^ rotr x 22

/-- SHA-256 big sigma 1. -/
def bsig1 (x : Nat) : Nat := rotr x 6 ^^^ rotr x 11 ^^^ rotr x 25

/-- SHA-256 small sigma 0. -/
def ssig0 (x : Nat) : Nat := rotr x 7 ^^^ rotr x 18 ^^^ (x >>> 3)

/-- SHA-256 small sigma 1. -/
def ssig1 (x : Nat) : Nat := rotr x 17 ^^^ rotr x 19 ^^^ (x >>> 10)

/-- SHA-256 round constants. -/
def K256 : List Nat :=
  [1116352408, 1899447441, 3049323471, 3921009573,
   961987163, 1508970993, 2453635748, 2870763221,
   3624381080, 310598401, 607225278, 1426881987,
   1925078388, 2162078206, 2614888103, 3248222580,
   3835390401, 4022224774, 264347078, 604807628,
   770255983, 1249150122, 1555081692, 1996064986,
   2554220882, 2821834349, 2952996808, 3210313671,
   3336571891, 3584528711, 113926993, 338241895,
   666307205, 773529912, 1294757372, 1396182291,
   1695183700, 1986661051, 2177026350, 2456956037,
   2730485921, 2820302411, 3259730800, 3345764771,
   3516065817, 3600352804, 4094571909, 275423344,
   430227734, 506948616, 659060556, 883997877,
   958139571, 1322822218, 1537002063, 1747873779,
   1955562222, 2024104815, 2227730452, 2361852424,
   2428436474, 2756734187, 3204031479, 3329325298]

/-- SHA-256 working state: eight 32-bit words. -/
structure Hash8 where
  ha : Nat
  hb : Nat
  hc : Nat
  hd : Nat
  he : Nat
  hf : Nat
  hg : Nat
  hh : Nat
deriving DecidableEq, Repr

/-- SHA-256 initial hash value. -/
def initH : Hash8 :=
  { ha := 1779033703, hb := 3144134277, hc := 1013904242, hd := 2773480762,
    he := 1359893119, hf := 2600822924, hg := 528734635, hh := 1541459225 }

/-- Big-endian 8-byte encoding of the message bit length. -/
def beBytes8 (n : Nat) : List Nat :=
  [(n >>> 56) &&& 255, (n >>> 48) &&& 255, (n >>> 40) &&& 255,
   (n >>> 32) &&& 255, (n >>> 24) &&& 255, (n >>> 16) &&& 255,
   (n >>> 8) &&& 255, n &&& 255]

/-- SHA-256 message padding: append 0x80, zeros to 56 mod 64, then the
bit length as 8 big-endian bytes. -/
def padMessage (msg : List Nat) : List Nat :=
  let padZeros := (119 - msg.length % 64) % 64
  msg ++ [128] ++ List.replicate padZeros 0 ++ beBytes8 (msg.length * 8)

/-- Group bytes four at a time into big-endian 32-bit words. -/
def bytesToWords : List Nat → List Nat
  | b0 :: b1 :: b2 :: b3 :: rest =>
    ((((b0 <<< 8) ||| b1) <<< 8 ||| b2) <<< 8 ||| b3) :: bytesToWords rest
  | _ => []

/-- Split a byte list into 64-byte blocks. -/
def chunks64 : List Nat → List (List Nat)
  | [] => []
  | b :: bs => ((b :: bs).take 64) :: chunks64 ((b :: bs).drop 64)
termination_by l => l.length
decreasing_by simp [List.length_drop]; omega

/-- Extend the 16-word message schedule by `n` further words. -/
def extendSchedule (w : List Nat) : Nat → List Nat
  | 0 => w
  | n + 1 =>
    let v := extendSchedule w n
    let t := v.length
    v ++ [wadd (wadd (ssig1 (v.getD (t - 2) 0)) (v.getD (t - 7) 0))
            (wadd (ssig0 (v.getD (t - 15) 0)) (v.getD (t - 16) 0))]

/-- One SHA-256 compression round. -/
def round256 (s : Hash8) (ki wi : Nat) : Hash8 :=
  let t1 := wadd (wadd (wadd s.hh (bsig1 s.he)) (wadd (chB s.he s.hf s.hg) ki)) wi
  let t2 := wadd (bsig0 s.ha) (majB s.ha s.hb s.hc)
  { ha := wadd t1 t2, hb := s.ha, hc := s.hb, hd := s.hc,
    he := wadd s.hd t1, hf := s.he, hg := s.hf, hh := s.hg }

/-- Compress one 64-byte block into the running hash state. -/
def compressBlock (s : Hash8) (block : List Nat) : Hash8 :=
  let w := extendSchedule (bytesToWords block) 48
  let t := (K256.zip w).foldl (fun st p => round256 st p.1 p.2) s
  { ha := wadd s.ha t.ha, hb := wadd s.hb t.hb, hc := wadd s.hc t.hc,
    hd := wadd s.hd t.hd, he := wadd s.he t.he, hf := wadd s.hf t.hf,
    hg := wadd s.hg t.hg, hh := wadd s.hh t.hh }

/-- SHA-256 digest of a byte list, as eight 32-bit words. -/
def sha256Words (msg : List Nat) : List Nat :=
  let s := (chunks64 (padMessage msg)).foldl compressBlock initH
  [s.ha, s.hb, s.hc, s.hd, s.he, s.hf, s.hg, s.hh]

/-- Lowercase hex digit for a value below 16. -/
def hexDigit (n : Nat) : Char :=
  "0123456789abcdef".data.getD n (Char.ofNat 48)

/-- Eight hex characters of a 32-bit word, most significant first. -/
def toHexChars8 (n : Nat) : List Char :=
  [hexDigit ((n >>> 28) &&& 15), hexDigit ((n >>> 24) &&& 15),
   hexDigit ((n >>> 20) &&& 15), hexDigit ((n >>> 16) &&& 15),
   hexDigit ((n >>> 12) &&& 15), hexDigit ((n >>> 8) &&& 15),
   hexDigit ((n >>> 4) &&& 15), hexDigit (n &&& 15)]

/-- Hex digest of SHA-256 over the UTF-8 bytes of a string: the value of
`createHash("sha256").update(s).digest("hex")`. -/
def sha256Hex (s : String) : String :=
  String.mk ((sha256Words (utf8Bytes s)).foldr
    (fun w acc => toHexChars8 w ++ acc) [])

/-! ### Data model

One structure per relation of `db/schema.ts` / `schema.ts`.  Dates are
millisecond timestamps (`Nat`); nullable columns are `Option`; enum
columns are kept as the enum strings they hold, except the version
change action which the handlers branch on and which is therefore a
dedicated inductive. -/

/-- Action recorded in a version file-change entry. -/
inductive ChangeAction where
  | created
  | modified
  | deleted
deriving DecidableEq, Repr

/-- The enum string stored for a change action. -/
def actionName : ChangeAction → String
  | .created => "created"
  | .modified => "modified"
  | .deleted => "deleted"

/-- One entry of a version's `file_changes` JSON payload.  The typed
schema has exactly the first four fields; `rollback_version.ts`
additionally reads optional `file_name`/`file_path`/`file_type` hints
from the raw JSON, so they are modelled as optional extras (entries
written by the handlers themselves always leave them absent). -/
structure FileChange where
  file_id : String
  action : ChangeAction
  content_before : Option String
  content_after : Option String
  file_name : Option String := none
  file_path : Option String := none
  file_type : Option String := none
deriving DecidableEq, Repr

/-- A `sessions` row. -/
structure Session where
  id : String
  browser_fingerprint : String
  ip_address : String
  user_agent : String
  status : String
  created_at : Nat
  last_activity : Nat
  expires_at : Nat
  metadata : Option String
deriving DecidableEq, Repr

/-- A `projects` row. -/
structure Project where
  id : String
  name : String
  description : Option String
  type : String
  template_id : Option String
  session_id : String
  created_at : Nat
  updated_at : Nat
  is_public : Bool
  preview_url : Option String
  deployment_url : Option String
deriving DecidableEq, Repr

/-- A `files` row. -/
structure DbFile where
  id : String
  project_id : String
  name : String
  path : String
  content : String
  type : String
  size : Nat
  created_at : Nat
  updated_at : Nat
  is_deleted : Bool
deriving DecidableEq, Repr

/-- A `versions` row. -/
structure Version where
  id : String
  project_id : String
  commit_hash : String
  message : String
  author : String
  created_at : Nat
  file_changes : List FileChange
deriving DecidableEq, Repr

/-- A `collaborations` row. -/
structure Collaboration where
  id : String
  project_id : String
  session_id : String
  role : String
  invited_at : Nat
  last_active : Option Nat
  permissions : List String
deriving DecidableEq, Repr

/-- A `deployments` row. -/
structure Deployment where
  id : String
  project_id : String
  version_id : String
  status : String
  url : Option String
  build_logs : Option String
  created_at : Nat
  deployed_at : Option Nat
  config : Option String
deriving DecidableEq, Repr

/-- An `ai_chats` row. -/
structure AiChat where
  id : String
  session_id : String
  project_id : Option String
  message : String
  response : String
  model : String
  tokens_used : Nat
  created_at : Nat
  context_files : Option (List String)
deriving DecidableEq, Repr

/-- One file snapshot inside a template's `files` JSON payload. -/
structure TemplateFile where
  path : String
  content : String
  type : String
deriving DecidableEq, Repr

/-- A `templates` row. -/
structure Template where
  id : String
  name : String
  description : String
  type : String
  files : List TemplateFile
  tags : List String
  is_featured : Bool
  created_at : Nat
  usage_count : Nat
deriving DecidableEq, Repr

/-- The whole database: one list of rows per relation, in insertion
order (inserts append at the end). -/
structure DbState where
  sessions : List Session
  projects : List Project
  files : List DbFile
  versions : List Version
  collaborations : List Collaboration
  deployments : List Deployment
  aiChats : List AiChat
  templates : List Template
deriving DecidableEq, Repr

/-! ### `JSON.stringify` over file-change lists

`create_version.ts` feeds `JSON.stringify(input.file_changes)` into the
commit hash.  Key order follows the zod schema shape; optional hint
fields are emitted only when present, matching stringify of objects
that carry them. -/

/-- JSON escaping of one character. -/
def jsonEscapeChar (c : Char) : List Char :=
  if c = Char.ofNat 34 then [Char.ofNat 92, Char.ofNat 34]
  else if c = Char.ofNat 92 then [Char.ofNat 92, Char.ofNat 92]
  else if c = Char.ofNat 10 then [Char.ofNat 92, 'n']
  else if c = Char.ofNat 13 then [Char.ofNat 92, 'r']
  else if c = Char.ofNat 9 then [Char.ofNat 92, 't']
  else if c = Char.ofNat 8 then [Char.ofNat 92, 'b']
  else if c = Char.ofNat 12 then [Char.ofNat 92, 'f']
  else if c.toNat < 32 then
    [Char.ofNat 92, 'u', '0', '0', hexDigit (c.toNat >>> 4), hexDigit (c.toNat &&& 15)]
  else [c]

/-- A JSON string literal. -/
def jsonStr (s : String) : String :=
  "\"" ++ String.mk (s.data.foldr (fun c acc => jsonEscapeChar c ++ acc) []) ++ "\""

/-- A JSON string-or-null value. -/
def jsonNullableStr : Option String → String
  | none => "null"
  | some s => jsonStr s

/-- An optional trailing object member. -/
def jsonOptMember (key : String) : Option String → String
  | none => ""
  | some s => "," ++ jsonStr key ++ ":" ++ jsonStr s

/-- `JSON.stringify` of one file-change object. -/
def serializeChange (c : FileChange) : String :=
  "\x7b" ++ "\"file_id\":" ++ jsonStr c.file_id ++
  ",\"action\":" ++ jsonStr (actionName c.action) ++
  ",\"content_before\":" ++ jsonNullableStr c.content_before ++
  ",\"content_after\":" ++ jsonNullableStr c.content_after ++
  jsonOptMember "file_name" c.file_name ++
  jsonOptMember "file_path" c.file_path ++
  jsonOptMember "file_type" c.file_type ++ "\x7d"

/-- `JSON.stringify` of a file-change array. -/
def serializeChanges (cs : List FileChange) : String :=
  "[" ++ String.intercalate "," (cs.map serializeChange) ++ "]"

/-! ### Handlers

Each handler returns the database state after the call together with
its outcome; a thrown error is `Except.error` (writes already issued
before the throw persist, since no handler opens a transaction). -/

/-- `getSession` (get_session.ts): return the stored session row if it
exists, refreshing its `last_activity` to `now` as a side effect; the
returned value carries the fresh `last_activity` and all other fields
unchanged.  No status or expiry check is performed. -/
def getSession (st : DbState) (sessionId : String) (now : Nat) :
    DbState × Option Session :=
  match (st.sessions.filter (fun s => s.id == sessionId)).head? with
  | none => (st, none)
  | some session =>
    let st1 := { st with sessions := st.sessions.map (fun s =>
      if s.id == sessionId then { s with last_activity := now } else s) }
    (st1, some { session with last_activity := now })

/-- `CreateFileInput` (schema.ts). -/
structure CreateFileInput where
  project_id : String
  name : String
  path : String
  content : String
  type : String
deriving DecidableEq, Repr

/-- `createFile` (create_file.ts, database implementation): project must
exist, no non-deleted file may hold the same path in the project, size
is the UTF-8 byte length of the content. -/
def createFile (st : DbState) (input : CreateFileInput) (now : Nat)
    (freshId : String) : DbState × Except String DbFile :=
  if (st.projects.filter (fun p => p.id == input.project_id)).isEmpty then
    (st, .error ("Project with id " ++ input.project_id ++ " not found"))
  else if !(st.files.filter (fun f =>
      f.project_id == input.project_id && f.path == input.path &&
      f.is_deleted == false)).isEmpty then
    (st, .error ("File with path " ++ input.path ++ " already exists in this project"))
  else
    let contentSize := utf8Len input.content
    let file : DbFile :=
      { id := freshId, project_id := input.project_id, name := input.name,
        path := input.path, content := input.content, type := input.type,
        size := contentSize, created_at := now, updated_at := now,
        is_deleted := false }
    ({ st with files := st.files ++ [file] }, .ok file)

/-- `UpdateFileInput` (schema.ts): all of content/name/path optional. -/
structure UpdateFileInput where
  id : String
  content : Option String
  name : Option String
  path : Option String
deriving DecidableEq, Repr

/-- The row produced by `updateFile`'s update statement for a matching
row: `updated_at` always refreshed, content (with recomputed UTF-8 byte
size), name and path overwritten only when supplied. -/
def applyFileUpdate (input : UpdateFileInput) (now : Nat) (f : DbFile) : DbFile :=
  let f1 := { f with updated_at := now }
  let f2 := match input.content with
    | some c => { f1 with content := c, size := utf8Len c }
    | none => f1
  let f3 := match input.name with
    | some n => { f2 with name := n }
    | none => f2
  match input.path with
  | some p => { f3 with path := p }
  | none => f3

/-- `updateFile` (update_file.ts, database implementation): the file
must exist by id; no other precondition — in particular no path
uniqueness check against other files of the project. -/
def updateFile (st : DbState) (input : UpdateFileInput) (now : Nat) :
    DbState × Except String DbFile :=
  match (st.files.filter (fun f => f.id == input.id)).head? with
  | none => (st, .error "File not found")
  | some existing =>
    let files := st.files.map
      (fun f => if f.id == input.id then applyFileUpdate input now f else f)
    ({ st with files := files }, .ok (applyFileUpdate input now existing))

/-- `CreateVersionInput` (schema.ts). -/
structure CreateVersionInput where
  project_id : String
  message : String
  author : String
  file_changes : List FileChange
deriving DecidableEq, Repr

/-- The `new Date()` captured by `createVersion`: its millisecond value
and its `toISOString()` rendering, both read by the handler. -/
structure JsDate where
  ms : Nat
  iso : String
deriving DecidableEq, Repr

/-- The commit hash of `createVersion`: first 8 characters of the
SHA-256 hex digest of `changeString + now.toISOString() + project_id`. -/
def mkCommitHash (changes : List FileChange) (iso projectId : String) : String :=
  jsTake (sha256Hex (serializeChanges changes ++ iso ++ projectId)) 8

/-- `createVersion` (create_version.ts): project must exist; the version
row stores the payload verbatim with the derived short commit hash. -/
def createVersion (st : DbState) (input : CreateVersionInput) (now : JsDate)
    (freshId : String) : DbState × Except String Version :=
  if (st.projects.filter (fun p => p.id == input.project_id)).isEmpty then
    (st, .error ("Project with id " ++ input.project_id ++ " not found"))
  else
    let version : Version :=
      { id := freshId, project_id := input.project_id,
        commit_hash := mkCommitHash input.file_changes now.iso input.project_id,
        message := input.message, author := input.author, created_at := now.ms,
        file_changes := input.file_changes }
    ({ st with versions := st.versions ++ [version] }, .ok version)

/-- `deleteProject` (delete_project.ts): requires the project to exist
and be owned by the session, else returns false untouched; on success
soft-deletes the project's files and hard-deletes its chats,
collaborations, deployments, versions and finally the project row. -/
def deleteProject (st : DbState) (projectId sessionId : String) (now : Nat) :
    DbState × Bool :=
  if (st.projects.filter (fun p =>
      p.id == projectId && p.session_id == sessionId)).isEmpty then
    (st, false)
  else
    let st1 := { st with
      files := st.files.map (fun f =>
        if f.project_id == projectId then
          { f with is_deleted := true, updated_at := now }
        else f),
      aiChats := st.aiChats.filter (fun c => !(c.project_id == some projectId)),
      collaborations := st.collaborations.filter (fun c => !(c.project_id == projectId)),
      deployments := st.deployments.filter (fun d => !(d.project_id == projectId)),
      versions := st.versions.filter (fun v => !(v.project_id == projectId)),
      projects := st.projects.filter (fun p => !(p.id == projectId)) }
    (st1, true)

/-- `CreateProjectInput` (schema.ts). -/
structure CreateProjectInput where
  name : String
  description : Option String
  type : String
  template_id : Option String
  session_id : String
deriving DecidableEq, Repr

/-- The project row inserted by `createProject`: empty-string
description/template id fall back to null via JavaScript `|| null`,
`is_public` defaults false, preview URL derived from the fresh id. -/
def mkProject (input : CreateProjectInput) (pid : String) (now : Nat) : Project :=
  { id := pid, name := input.name, description := jsTruthy input.description,
    type := input.type, template_id := jsTruthy input.template_id,
    session_id := input.session_id, created_at := now, updated_at := now,
    is_public := false, preview_url := some ("https://preview.dev/" ++ pid),
    deployment_url := none }

/-- The file row copied from one template file during `createProject`:
path/content/type taken verbatim, name is the last path segment (the
whole path if that segment is empty), size is the JavaScript string
length of the content — UTF-16 code units, not UTF-8 bytes. -/
def mkTemplateFileRow (pid : String) (now : Nat) (fid : String)
    (tf : TemplateFile) : DbFile :=
  { id := fid, project_id := pid,
    name := jsOrStr (some (jsSplitLast tf.path "/")) tf.path,
    path := tf.path, content := tf.content, type := tf.type,
    size := utf16Len tf.content, created_at := now, updated_at := now,
    is_deleted := false }

/-- `createProject` (create_project.ts): session must exist; a truthy
template id must name an existing template, whose `usage_count` is
incremented before the project row is inserted; template files are then
copied under the new project.  `projectInsertOk` models whether the
project insert statement itself succeeds at the backing store — when it
fails the error propagates but the already-issued usage-count update
persists, since the handler is not transactional. -/
def createProject (st : DbState) (input : CreateProjectInput) (now : Nat)
    (freshProjectId : String) (freshFileId : Nat → String)
    (projectInsertOk : Bool) : DbState × Except String Project :=
  if (st.sessions.filter (fun s => s.id == input.session_id)).isEmpty then
    (st, .error ("Session with id " ++ input.session_id ++ " not found"))
  else
    match jsTruthy input.template_id with
    | some tid =>
      match (st.templates.filter (fun t => t.id == tid)).head? with
      | none => (st, .error ("Template with id " ++ tid ++ " not found"))
      | some template =>
        let st1 := { st with templates := st.templates.map (fun t =>
          if t.id == tid then { t with usage_count := template.usage_count + 1 }
          else t) }
        if projectInsertOk then
          let project := mkProject input freshProjectId now
          let st2 := { st1 with projects := st1.projects ++ [project] }
          let rows := template.files.enum.map
            (fun p => mkTemplateFileRow freshProjectId now (freshFileId p.1) p.2)
          ({ st2 with files := st2.files ++ rows }, .ok project)
        else
          (st1, .error "Project insert failed")
    | none =>
      if projectInsertOk then
        let project := mkProject input freshProjectId now
        ({ st with projects := st.projects ++ [project] }, .ok project)
      else
        (st, .error "Project insert failed")

/-! ### Rollback (rollback_version.ts) -/

/-- File extensions recognised by the rollback type-recovery heuristic. -/
def fileTypeExts : List String :=
  ["js", "ts", "jsx", "tsx", "css", "scss", "html", "json", "md"]

/-- Scan version rows for a change entry referencing `fid` and derive
name/path/type for a file to be re-created: name from the `file_name`
hint else `file_` plus the first 8 characters of the id, path from the
`file_path` hint else `/` plus the name, type from the name's extension
else `js`.  When no entry references `fid` at all the synthetic
defaults `restored_file`, `/restored_file`, `js` remain. -/
def recoverScan (fid : String) : List Version → String × String × String
  | [] => ("restored_file", "/restored_file", "js")
  | v :: rest =>
    match v.file_changes.find? (fun c => c.file_id == fid) with
    | some fc =>
      let fileName := jsOrStr fc.file_name ("file_" ++ jsTake fid 8)
      let filePath := jsOrStr fc.file_path ("/" ++ fileName)
      let ext := (jsSplitLast fileName ".").toLower
      let fileType := if fileTypeExts.contains ext then ext else "js"
      (fileName, filePath, fileType)
    | none => recoverScan fid rest

/-- Name/path/type recovery for a deleted file with no surviving row:
scan all versions of the project in stored order. -/
def recoverFileInfo (st : DbState) (pid fid : String) :
    String × String × String :=
  recoverScan fid (st.versions.filter (fun v => v.project_id == pid))

/-- One iteration of the rollback loop: apply the inverse of `change` to
the live state and append the compensating change entry.
`currentFiles` is the snapshot of the project's rows (deleted included)
taken once before the loop; sizes written here use the JavaScript
string length (UTF-16 code units). -/
def applyRollbackChange (pid : String) (now : Nat) (currentFiles : List DbFile)
    (acc : DbState × List FileChange) (change : FileChange) :
    DbState × List FileChange :=
  let st := acc.1
  let rcs := acc.2
  let currentFile := currentFiles.find? (fun f => f.id == change.file_id)
  match change.action with
  | .created =>
    match currentFile with
    | some cf =>
      let st1 := { st with files := st.files.map (fun f =>
        if f.id == change.file_id then
          { f with is_deleted := true, updated_at := now }
        else f) }
      (st1, rcs ++ [{ file_id := change.file_id, action := .deleted,
                      content_before := some cf.content, content_after := none }])
    | none => (st, rcs)
  | .modified =>
    match currentFile, change.content_before with
    | some cf, some cb =>
      let st1 := { st with files := st.files.map (fun f =>
        if f.id == change.file_id then
          { f with content := cb, size := utf16Len cb, updated_at := now }
        else f) }
      (st1, rcs ++ [{ file_id := change.file_id, action := .modified,
                      content_before := some cf.content, content_after := some cb }])
    | _, _ => (st, rcs)
  | .deleted =>
    match change.content_before with
    | some cb =>
      let existingFiles := st.files.filter (fun f => f.id == change.file_id)
      let st1 :=
        if !existingFiles.isEmpty then
          { st with files := st.files.map (fun f =>
            if f.id == change.file_id then
              { f with content := cb, size := utf16Len cb,
                       is_deleted := false, updated_at := now }
            else f) }
        else
          let info := recoverFileInfo st pid change.file_id
          { st with files := st.files ++
            [{ id := change.file_id, project_id := pid, name := info.1,
               path := info.2.1, content := cb, type := info.2.2,
               size := utf16Len cb, created_at := now, updated_at := now,
               is_deleted := false }] }
      (st1, rcs ++ [{ file_id := change.file_id, action := .created,
                      content_before := none, content_after := some cb }])
    | none => (st, rcs)

/-- The commit hash of the version appended by a rollback:
`rollback-` + `Date.now()` + `-` + a random base-36 suffix. -/
def rollbackCommitHash (now : Nat) (randSuffix : String) : String :=
  "rollback-" ++ toString now ++ "-" ++ randSuffix

/-- `rollbackVersion` (rollback_version.ts): the project must exist and
be owned by the acting session (collaborations are never consulted),
the target version must exist under the project; then each recorded
change is inverted in list order against the live rows, a new version
holding the accumulated compensating changes is appended, and the
project's `updated_at` is touched.  Returns true on completion. -/
def rollbackVersion (st : DbState) (projectId versionId sessionId : String)
    (now : Nat) (freshVersionId randSuffix : String) :
    DbState × Except String Bool :=
  if (st.projects.filter (fun p =>
      p.id == projectId && p.session_id == sessionId)).isEmpty then
    (st, .error "Project not found or access denied")
  else
    match (st.versions.filter (fun v =>
        v.id == versionId && v.project_id == projectId)).head? with
    | none => (st, .error "Version not found")
    | some targetVersion =>
      let currentFiles := st.files.filter (fun f => f.project_id == projectId)
      let res := targetVersion.file_changes.foldl
        (applyRollbackChange projectId now currentFiles) (st, [])
      let newVersion : Version :=
        { id := freshVersionId, project_id := projectId,
          commit_hash := rollbackCommitHash now randSuffix,
          message := "Rollback to version: " ++ targetVersion.message,
          author := "system", created_at := now, file_changes := res.2 }
      let st1 := { res.1 with versions := res.1.versions ++ [newVersion] }
      let st2 := { st1 with projects := st1.projects.map (fun p =>
        if p.id == projectId then { p with updated_at := now } else p) }
      (st2, .ok true)

/-! ### Wellformedness and list lemmas

Row identifiers are primary keys, so a reachable database state has
pairwise-distinct ids within each relation.  The lemmas below turn that
into the first-match behaviour of the handlers' `filter`/`find?` calls
and into frame properties of keyed updates. -/

/-- Primary-key uniqueness for each relation. -/
structure WF (st : DbState) : Prop where
  sessions_nodup : (st.sessions.map Session.id).Nodup
  projects_nodup : (st.projects.map Project.id).Nodup
  files_nodup : (st.files.map DbFile.id).Nodup
  versions_nodup : (st.versions.map Version.id).Nodup
  templates_nodup : (st.templates.map Template.id).Nodup

/-- Under key uniqueness, a filter whose predicate pins the key of a
member `x` returns exactly `[x]`. -/
theorem filter_eq_singleton {α : Type} (key : α → String) (l : List α) (x : α)
    (hnd : (l.map key).Nodup) (hx : x ∈ l) (p : α → Bool) (hpx : p x = true)
    (hkey : ∀ y ∈ l, p y = true → key y = key x) : l.filter p = [x] := by
  induction l with
  | nil => cases hx
  | cons a l ih =>
    rw [List.map_cons, List.nodup_cons] at hnd
    rcases List.mem_cons.mp hx with rfl | hxl
    · rw [List.filter_cons, if_pos (by simp [hpx])]
      have hnil : l.filter p = [] := by
        refine List.filter_eq_nil_iff.mpr (fun y hy hpy => ?_)
        exact hnd.1 (hkey y (List.mem_cons_of_mem _ hy) hpy ▸
          List.mem_map_of_mem key hy)
      rw [hnil]
    · have hpa : p a = false := by
        rcases Bool.eq_false_or_eq_true (p a) with h | h
        · exact absurd (hkey a (List.mem_cons_self a l) h ▸
            List.mem_map_of_mem key hxl) hnd.1
        · exact h
      rw [List.filter_cons, if_neg (by simp [hpa])]
      exact ih hnd.2 hxl (fun y hy => hkey y (List.mem_cons_of_mem _ hy))

/-- Under key uniqueness, `find?` by the key of a member of a filtered
list returns that member, provided it passes the filter. -/
theorem find?_filter_key {α : Type} (key : α → String) (l : List α) (x : α)
    (hnd : (l.map key).Nodup) (hx : x ∈ l) (q : α → Bool) (hq : q x = true) :
    (l.filter q).find? (fun y => key y == key x) = some x := by
  induction l with
  | nil => cases hx
  | cons a l ih =>
    rw [List.map_cons, List.nodup_cons] at hnd
    rcases List.mem_cons.mp hx with rfl | hxl
    · rw [List.filter_cons, if_pos (by simp [hq]),
        List.find?_cons_of_pos _ (by simp)]
    · have hka : key a ≠ key x := by
        intro h
        exact hnd.1 (h ▸ List.mem_map_of_mem key hxl)
      rw [List.filter_cons]
      rcases Bool.eq_false_or_eq_true (q a) with hqa | hqa
      · rw [if_pos (by simp [hqa]), List.find?_cons_of_neg _ (by simp [hka])]
        exact ih hnd.2 hxl
      · rw [if_neg (by simp [hqa])]
        exact ih hnd.2 hxl

/-- A keyed conditional update leaves any filter disjoint from the
update condition unchanged. -/
theorem map_ite_filter_of_pres {α : Type} (c p : α → Bool) (g : α → α)
    (hgp : ∀ x, p (g x) = p x) (hcp : ∀ x, c x = true → p x = false)
    (l : List α) :
    (l.map (fun x => if c x then g x else x)).filter p = l.filter p := by
  induction l with
  | nil => rfl
  | cons a l ih =>
    rcases Bool.eq_false_or_eq_true (c a) with hca | hca
    · have hpa := hcp a hca
      rw [List.map_cons, if_pos (by simp [hca]), List.filter_cons,
        List.filter_cons, if_neg (by simp [hgp, hpa]), if_neg (by simp [hpa]), ih]
    · rw [List.map_cons, if_neg (by simp [hca]), List.filter_cons,
        List.filter_cons, ih]

/-- A keyed conditional update pushes inside a filter that implies the
update condition. -/
theorem map_ite_filter_of_sub {α : Type} (c p : α → Bool) (g : α → α)
    (hgp : ∀ x, p (g x) = p x) (hcp : ∀ x, p x = true → c x = true)
    (l : List α) :
    (l.map (fun x => if c x then g x else x)).filter p = (l.filter p).map g := by
  induction l with
  | nil => rfl
  | cons a l ih =>
    rcases Bool.eq_false_or_eq_true (p a) with hpa | hpa
    · have hca := hcp a hpa
      rw [List.map_cons, if_pos (by simp [hca]), List.filter_cons,
        List.filter_cons, if_pos (by simp [hgp, hpa]), if_pos (by simp [hpa]),
        List.map_cons, ih]
    · rcases Bool.eq_false_or_eq_true (c a) with hca | hca
      · rw [List.map_cons, if_pos (by simp [hca]), List.filter_cons,
          List.filter_cons, if_neg (by simp [hgp, hpa]), if_neg (by simp [hpa]), ih]
      · rw [List.map_cons, if_neg (by simp [hca]), List.filter_cons,
          List.filter_cons, if_neg (by simp [hpa]), if_neg (by simp [hpa]), ih]

/-! ### Claim C9 — getSession -/

/-- Claim C9: `getSession` returns the stored session whenever a row
with the given id exists — regardless of the session's `status` or of
`expires_at` lying in the past, since the state `st`, and with it those
two fields of `s`, is universally quantified and unconstrained — and on
such a read it refreshes `last_activity` to `now`, leaving every other
field of the row and every other table unchanged; it returns `none`
exactly when no row with the id exists, leaving the state untouched. -/
theorem c9_getSession_ignores_expiry (st : DbState) (s : Session) (now : Nat)
    (hwf : WF st) (hs : s ∈ st.sessions) :
    (getSession st s.id now).2 = some { s with last_activity := now } ∧
    (getSession st s.id now).1.sessions = st.sessions.map (fun t =>
      if t.id == s.id then { t with last_activity := now } else t) ∧
    (getSession st s.id now).1.projects = st.projects ∧
    (getSession st s.id now).1.files = st.files ∧
    (getSession st s.id now).1.versions = st.versions ∧
    (∀ sid, (∀ t ∈ st.sessions, t.id ≠ sid) →
      getSession st sid now = (st, none)) := by
  have hfilter : st.sessions.filter (fun t => t.id == s.id) = [s] :=
    filter_eq_singleton Session.id st.sessions s hwf.sessions_nodup hs _
      (by simp) (fun y _ hy => by simpa using hy)
  refine ⟨?_, ?_, ?_, ?_, ?_, ?_⟩
  · simp [getSession, hfilter]
  · simp [getSession, hfilter]
  · simp [getSession, hfilter]
  · simp [getSession, hfilter]
  · simp [getSession, hfilter]
  · intro sid hnone
    have : st.sessions.filter (fun t => t.id == sid) = [] :=
      List.filter_eq_nil_iff.mpr (fun t ht => by simp [hnone t ht])
    simp [getSession, this]

/-- Concrete state for the C9 witness: a single session whose
`expires_at` (40) is already in the past at read time (`now` = 50) and
whose status is `expired`. -/
def w9Sess : Session :=
  { id := "s1", browser_fingerprint := "fp", ip_address := "127.0.0.1",
    user_agent := "ua", status := "expired", created_at := 0,
    last_activity := 3, expires_at := 40, metadata := none }

/-- Concrete state for the C9 witness. -/
def w9St : DbState :=
  { sessions := [w9Sess], projects := [], files := [], versions := [],
    collaborations := [], deployments := [], aiChats := [], templates := [] }

/-- Witness for C9: reading the expired session still returns it, with
`last_activity` refreshed to 50 and every other field intact. -/
theorem c9_witness :
    (getSession w9St "s1" 50).2 = some { w9Sess with last_activity := 50 } :=
  (c9_getSession_ignores_expiry w9St w9Sess 50
    ⟨by decide, by decide, by decide, by decide, by decide⟩ (by decide)).1

/-! ### Claim C3 — rollback ownership -/

/-- Claim C3: for a project owned by session `P.session_id`, a rollback
attempted by any other session `S2` fails with the access-denied error
and returns the state unchanged.  The state is universally quantified,
so the conclusion holds in particular when `st.collaborations` contains
a record granting `S2` any role (even `owner`) on the project:
collaborations are never consulted by `rollbackVersion`. -/
theorem c3_rollback_owner_only (st : DbState) (P : Project)
    (versionId S2 : String) (now : Nat) (vid rand : String)
    (hwf : WF st) (hP : P ∈ st.projects) (hS2 : S2 ≠ P.session_id) :
    rollbackVersion st P.id versionId S2 now vid rand =
      (st, .error "Project not found or access denied") := by
  have hfilter : st.projects.filter (fun p =>
      p.id == P.id && p.session_id == S2) = [] := by
    refine List.filter_eq_nil_iff.mpr (fun q hq hcond => ?_)
    have hid : q.id = P.id := by
      have := (Bool.and_eq_true _ _).mp hcond
      simpa using this.1
    have hq' : q = P := List.inj_on_of_nodup_map hwf.projects_nodup hq hP hid
    have hsess : q.session_id = S2 := by
      have := (Bool.and_eq_true _ _).mp hcond
      simpa using this.2
    exact hS2 (by rw [← hsess, hq'])
  simp [rollbackVersion, hfilter]

/-- Concrete state for the C3 witness: project `p1` owned by `s1`,
session `s2` holding an owner-role collaboration on `p1`. -/
def w3St : DbState :=
  { sessions :=
      [{ id := "s1", browser_fingerprint := "fp", ip_address := "ip",
         user_agent := "ua", status := "active", created_at := 0,
         last_activity := 0, expires_at := 10, metadata := none },
       { id := "s2", browser_fingerprint := "fp2", ip_address := "ip2",
         user_agent := "ua2", status := "active", created_at := 0,
         last_activity := 0, expires_at := 10, metadata := none }],
    projects :=
      [{ id := "p1", name := "P", description := none, type := "react",
         template_id := none, session_id := "s1", created_at := 0,
         updated_at := 0, is_public := false, preview_url := none,
         deployment_url := none }],
    files := [], versions :=
      [{ id := "v1", project_id := "p1", commit_hash := "deadbeef",
         message := "m", author := "a", created_at := 0, file_changes := [] }],
    collaborations :=
      [{ id := "c1", project_id := "p1", session_id := "s2", role := "owner",
         invited_at := 0, last_active := none,
         permissions := ["read", "write", "delete", "share", "deploy"] }],
    deployments := [], aiChats := [], templates := [] }

/-- Witness for C3: even with an owner-role collaboration on `p1`,
session `s2` cannot roll the project back and nothing changes. -/
theorem c3_witness :
    rollbackVersion w3St "p1" "v1" "s2" 9 "nv" "rr" =
      (w3St, .error "Project not found or access denied") := by
  have h := c3_rollback_owner_only w3St
    { id := "p1", name := "P", description := none, type := "react",
      template_id := none, session_id := "s1", created_at := 0,
      updated_at := 0, is_public := false, preview_url := none,
      deployment_url := none }
    "v1" "s2" 9 "nv" "rr"
    ⟨by decide, by decide, by decide, by decide, by decide⟩
    (by decide) (by decide)
  exact h

/-! ### Claim C6 — deleteProject cascade -/

/-- Claim C6: when the project exists and is owned by the session,
`deleteProject` returns true, keeps every file row (same ids, same
count) but marks all of the project's files deleted, empties the
project's versions, collaborations, deployments and chats, removes the
project row, and leaves every row belonging to any other project — and
the sessions and templates tables — untouched; when the project is
missing or not owned, it returns false with the state unchanged. -/
theorem c6_deleteProject_cascade (st : DbState) (pid S : String) (now : Nat) :
    ((∃ P ∈ st.projects, P.id = pid ∧ P.session_id = S) →
      (deleteProject st pid S now).2 = true ∧
      (deleteProject st pid S now).1.files.map DbFile.id = st.files.map DbFile.id ∧
      (∀ f ∈ (deleteProject st pid S now).1.files,
        f.project_id = pid → f.is_deleted = true) ∧
      (deleteProject st pid S now).1.versions.filter
        (fun v => v.project_id == pid) = [] ∧
      (deleteProject st pid S now).1.collaborations.filter
        (fun c => c.project_id == pid) = [] ∧
      (deleteProject st pid S now).1.deployments.filter
        (fun d => d.project_id == pid) = [] ∧
      (deleteProject st pid S now).1.aiChats.filter
        (fun c => c.project_id == some pid) = [] ∧
      (∀ p ∈ (deleteProject st pid S now).1.projects, p.id ≠ pid) ∧
      (deleteProject st pid S now).1.files.filter (fun f => !(f.project_id == pid))
        = st.files.filter (fun f => !(f.project_id == pid)) ∧
      (deleteProject st pid S now).1.versions.filter (fun v => !(v.project_id == pid))
        = st.versions.filter (fun v => !(v.project_id == pid)) ∧
      (deleteProject st pid S now).1.collaborations.filter (fun c => !(c.project_id == pid))
        = st.collaborations.filter (fun c => !(c.project_id == pid)) ∧
      (deleteProject st pid S now).1.deployments.filter (fun d => !(d.project_id == pid))
        = st.deployments.filter (fun d => !(d.project_id == pid)) ∧
      (deleteProject st pid S now).1.aiChats.filter (fun c => !(c.project_id == some pid))
        = st.aiChats.filter (fun c => !(c.project_id == some pid)) ∧
      (deleteProject st pid S now).1.projects.filter (fun p => !(p.id == pid))
        = st.projects.filter (fun p => !(p.id == pid)) ∧
      (deleteProject st pid S now).1.sessions = st.sessions ∧
      (deleteProject st pid S now).1.templates = st.templates) ∧
    ((∀ P ∈ st.projects, ¬(P.id = pid ∧ P.session_id = S)) →
      deleteProject st pid S now = (st, false)) := by
  constructor
  · rintro ⟨P, hP, hid, hS⟩
    have hmem : P ∈ st.projects.filter (fun p =>
        p.id == pid && p.session_id == S) :=
      List.mem_filter.mpr ⟨hP, by simp [hid, hS]⟩
    have hne : ¬(st.projects.filter (fun p =>
        p.id == pid && p.session_id == S)).isEmpty = true := by
      cases hfe : (st.projects.filter (fun p =>
        p.id == pid && p.session_id == S)) with
      | nil => rw [hfe] at hmem; cases hmem
      | cons a l => simp [hfe]
    have hD : deleteProject st pid S now =
      ({ st with
          files := st.files.map (fun f =>
            if f.project_id == pid then
              { f with is_deleted := true, updated_at := now }
            else f),
          aiChats := st.aiChats.filter (fun c => !(c.project_id == some pid)),
          collaborations := st.collaborations.filter (fun c => !(c.project_id == pid)),
          deployments := st.deployments.filter (fun d => !(d.project_id == pid)),
          versions := st.versions.filter (fun v => !(v.project_id == pid)),
          projects := st.projects.filter (fun p => !(p.id == pid)) }, true) := by
      simp only [deleteProject, if_neg hne]
    rw [hD]
    refine ⟨rfl, ?_, ?_, ?_, ?_, ?_, ?_, ?_, ?_, ?_, ?_, ?_, ?_, ?_, rfl, rfl⟩
    · rw [List.map_map]
      refine List.map_congr_left (fun f _ => ?_)
      by_cases h : (f.project_id == pid) = true
      · show (if f.project_id == pid then _ else f).id = f.id
        rw [if_pos h]
      · show (if f.project_id == pid then _ else f).id = f.id
        rw [if_neg h]
    · intro f hf hfp
      rcases List.mem_map.mp hf with ⟨g, hg, hgf⟩
      by_cases h : g.project_id == pid
      · rw [← hgf]; simp [h]
      · exfalso
        rw [← hgf] at hfp
        simp only [if_neg h] at hfp
        exact h (by simp [hfp])
    · refine List.filter_eq_nil_iff.mpr (fun v hv => ?_)
      have := List.mem_filter.mp hv
      simpa using this.2
    · refine List.filter_eq_nil_iff.mpr (fun c hc => ?_)
      have := List.mem_filter.mp hc
      simpa using this.2
    · refine List.filter_eq_nil_iff.mpr (fun d hd => ?_)
      have := List.mem_filter.mp hd
      simpa using this.2
    · refine List.filter_eq_nil_iff.mpr (fun c hc => ?_)
      have := List.mem_filter.mp hc
      simpa using this.2
    · intro p hp
      have := List.mem_filter.mp hp
      simpa using this.2
    · exact map_ite_filter_of_pres _ _ _
        (fun f => by by_cases h : f.project_id == pid <;> simp [h])
        (fun f h => by simpa using h) st.files
    · exact List.filter_eq_self.mpr (fun v hv => (List.mem_filter.mp hv).2)
    · exact List.filter_eq_self.mpr (fun c hc => (List.mem_filter.mp hc).2)
    · exact List.filter_eq_self.mpr (fun d hd => (List.mem_filter.mp hd).2)
    · exact List.filter_eq_self.mpr (fun c hc => (List.mem_filter.mp hc).2)
    · exact List.filter_eq_self.mpr (fun p hp => (List.mem_filter.mp hp).2)
  · intro hnone
    have hfilter : st.projects.filter (fun p =>
        p.id == pid && p.session_id == S) = [] := by
      refine List.filter_eq_nil_iff.mpr (fun q hq hcond => ?_)
      rcases (Bool.and_eq_true _ _).mp hcond with ⟨h1, h2⟩
      exact hnone q hq ⟨by simpa using h1, by simpa using h2⟩
    simp [deleteProject, hfilter]

/-- Project row used by the C6 witness. -/
def w6Proj : Project :=
  { id := "p1", name := "P", description := none, type := "react",
    template_id := none, session_id := "s1", created_at := 0,
    updated_at := 0, is_public := false, preview_url := none,
    deployment_url := none }

/-- Concrete state for the C6 witness: project `p1` owned by `s1` with
one file, one version, one collaboration, one deployment and one chat,
next to an unrelated project `p2` with a file of its own. -/
def w6St : DbState :=
  { sessions := [], projects :=
      [w6Proj,
       { id := "p2", name := "Q", description := none, type := "vue",
         template_id := none, session_id := "s9", created_at := 0,
         updated_at := 0, is_public := false, preview_url := none,
         deployment_url := none }],
    files :=
      [{ id := "f1", project_id := "p1", name := "a.js", path := "/a.js",
         content := "x", type := "js", size := 1, created_at := 0,
         updated_at := 0, is_deleted := false },
       { id := "f2", project_id := "p2", name := "b.js", path := "/b.js",
         content := "y", type := "js", size := 1, created_at := 0,
         updated_at := 0, is_deleted := false }],
    versions :=
      [{ id := "v1", project_id := "p1", commit_hash := "deadbeef",
         message := "m", author := "a", created_at := 0, file_changes := [] }],
    collaborations :=
      [{ id := "c1", project_id := "p1", session_id := "s2", role := "viewer",
         invited_at := 0, last_active := none, permissions := ["read"] }],
    deployments :=
      [{ id := "d1", project_id := "p1", version_id := "v1",
         status := "pending", url := none, build_logs := none,
         created_at := 0, deployed_at := none, config := none }],
    aiChats :=
      [{ id := "h1", session_id := "s1", project_id := some "p1",
         message := "hi", response := "ok", model := "gpt-4",
         tokens_used := 1, created_at := 0, context_files := none }],
    templates := [] }

/-- Witness for C6: the owner's delete succeeds and a non-owner's
delete returns false with the state untouched. -/
theorem c6_witness :
    (deleteProject w6St "p1" "s1" 9).2 = true ∧
    deleteProject w6St "p1" "s2" 9 = (w6St, false) :=
  ⟨((c6_deleteProject_cascade w6St "p1" "s1" 9).1
      ⟨w6Proj, by decide, rfl, rfl⟩).1,
   (c6_deleteProject_cascade w6St "p1" "s2" 9).2 (by decide)⟩

/-! ### Claim C8 — updateFile performs no path-uniqueness check -/

/-- The invariant established by `createFile`: within a project, paths
of non-deleted files are pairwise distinct (any two rows either share
an id, live in different projects, involve a deleted row, or differ in
path). -/
def pathUniqueOk (st : DbState) : Bool :=
  st.files.all (fun f1 => st.files.all (fun f2 =>
    f1.id == f2.id || !(f1.project_id == f2.project_id) ||
    f1.is_deleted || f2.is_deleted || !(f1.path == f2.path)))

/-- A file row used by the C8 concrete part and witness. -/
def w8fa : DbFile :=
  { id := "f1", project_id := "p1", name := "a.js", path := "/a.js",
    content := "x", type := "js", size := 1, created_at := 0,
    updated_at := 0, is_deleted := false }

/-- A state with two non-deleted files of one project at distinct
paths, used to break path uniqueness through `updateFile`. -/
def w8St : DbState :=
  { sessions := [], projects :=
      [{ id := "p1", name := "P", description := none, type := "react",
         template_id := none, session_id := "s1", created_at := 0,
         updated_at := 0, is_public := false, preview_url := none,
         deployment_url := none }],
    files :=
      [w8fa,
       { id := "f2", project_id := "p1", name := "b.js", path := "/b.js",
         content := "y", type := "js", size := 1, created_at := 0,
         updated_at := 0, is_deleted := false }],
    versions := [], collaborations := [], deployments := [],
    aiChats := [], templates := [] }

/-- Claim C8: `updateFile` succeeds for any existing file and any new
path — it checks only that the file id exists — so it does not preserve
the per-project path-uniqueness invariant among non-deleted files,
while `createFile` does enforce that invariant (third conjunct) and the
fourth conjunct exhibits a uniqueness-respecting state that a single
`updateFile` call drives into violation. -/
theorem c8_updateFile_no_path_check (st : DbState) (f : DbFile) (p : String)
    (now : Nat) (hwf : WF st) (hf : f ∈ st.files) :
    (updateFile st { id := f.id, content := none, name := none,
                     path := some p } now).2 =
      .ok { f with updated_at := now, path := p } ∧
    (updateFile st { id := f.id, content := none, name := none,
                     path := some p } now).1.files =
      st.files.map (fun g => if g.id == f.id then
        { g with updated_at := now, path := p } else g) ∧
    (∀ (st2 : DbState) (input2 : CreateFileInput) (now2 : Nat) (fid2 : String),
      (∃ g ∈ st2.files, g.project_id = input2.project_id ∧
        g.path = input2.path ∧ g.is_deleted = false) →
      (createFile st2 input2 now2 fid2).1 = st2 ∧
      ∃ e, (createFile st2 input2 now2 fid2).2 = Except.error e) ∧
    (pathUniqueOk w8St = true ∧
      pathUniqueOk (updateFile w8St { id := "f2", content := none,
                                      name := none, path := some "/a.js" } 5).1
        = false) := by
  have hfilter : st.files.filter (fun g => g.id == f.id) = [f] :=
    filter_eq_singleton DbFile.id st.files f hwf.files_nodup hf _
      (by simp) (fun y _ hy => by simpa using hy)
  refine ⟨?_, ?_, ?_, ?_, ?_⟩
  · simp only [updateFile, hfilter, List.head?]
    rfl
  · simp only [updateFile, hfilter, List.head?]
    refine List.map_congr_left (fun g _ => ?_)
    by_cases h : (g.id == f.id) = true
    · rw [if_pos h, if_pos h]
      rfl
    · rw [if_neg h, if_neg h]
  · intro st2 input2 now2 fid2 hex
    rcases hex with ⟨g, hg, hproj, hpath, hdel⟩
    by_cases hp : (st2.projects.filter
        (fun q => q.id == input2.project_id)).isEmpty = true
    · refine ⟨?_, "Project with id " ++ input2.project_id ++ " not found", ?_⟩
      · unfold createFile
        rw [if_pos hp]
      · unfold createFile
        rw [if_pos hp]
    · have hmem : g ∈ st2.files.filter (fun h => h.project_id == input2.project_id
          && h.path == input2.path && h.is_deleted == false) :=
        List.mem_filter.mpr ⟨hg, by simp [hproj, hpath, hdel]⟩
      have hne : ¬(st2.files.filter (fun h => h.project_id == input2.project_id
          && h.path == input2.path && h.is_deleted == false)).isEmpty = true := by
        cases hfe : st2.files.filter (fun h => h.project_id == input2.project_id
            && h.path == input2.path && h.is_deleted == false) with
        | nil => rw [hfe] at hmem; cases hmem
        | cons a l => simp [hfe]
      have hcond : (!(st2.files.filter (fun h => h.project_id == input2.project_id
          && h.path == input2.path && h.is_deleted == false)).isEmpty) = true := by
        cases hb : (st2.files.filter (fun h => h.project_id == input2.project_id
            && h.path == input2.path && h.is_deleted == false)).isEmpty
        · rfl
        · exact absurd hb hne
      refine ⟨?_, "File with path " ++ input2.path ++
          " already exists in this project", ?_⟩
      · unfold createFile
        rw [if_neg hp, if_pos hcond]
      · unfold createFile
        rw [if_neg hp, if_pos hcond]
  · decide
  · decide

/-- Witness for C8: updating `f1`'s path to `/b.js` succeeds even
though the non-deleted `f2` of the same project already claims it. -/
theorem c8_witness :
    (updateFile w8St { id := "f1", content := none, name := none,
                       path := some "/b.js" } 7).2 =
      .ok { w8fa with updated_at := 7, path := "/b.js" } :=
  (c8_updateFile_no_path_check w8St w8fa "/b.js" 7
    ⟨by decide, by decide, by decide, by decide, by decide⟩ (by decide)).1

/-! ### Claim C10 — template usage increment is not atomic -/

/-- The stored usage count of the template with the given id. -/
def templateUsage (st : DbState) (tid : String) : Option Nat :=
  ((st.templates.filter (fun t => t.id == tid)).head?).map Template.usage_count

/-- Claim C10: `createProject` issues the template `usage_count`
increment before the project insert, so when the project insert fails
at the backing store the call errors with no project row and no file
rows added, yet the increment has already been applied and persists:
the state is not left unchanged on error. -/
theorem c10_usage_increment_persists_on_failure (st : DbState)
    (input : CreateProjectInput) (T : Template) (now : Nat) (pid : String)
    (fidF : Nat → String) (hwf : WF st) (hT : T ∈ st.templates)
    (htid : jsTruthy input.template_id = some T.id)
    (hsess : ∃ s ∈ st.sessions, s.id = input.session_id) :
    (∃ e, (createProject st input now pid fidF false).2 = Except.error e) ∧
    (createProject st input now pid fidF false).1.projects = st.projects ∧
    (createProject st input now pid fidF false).1.files = st.files ∧
    templateUsage (createProject st input now pid fidF false).1 T.id
      = some (T.usage_count + 1) ∧
    templateUsage st T.id = some T.usage_count := by
  rcases hsess with ⟨s, hs, hsid⟩
  have hmem : s ∈ st.sessions.filter (fun t => t.id == input.session_id) :=
    List.mem_filter.mpr ⟨hs, by simp [hsid]⟩
  have hsne : ¬(st.sessions.filter
      (fun t => t.id == input.session_id)).isEmpty = true := by
    cases hfe : st.sessions.filter (fun t => t.id == input.session_id) with
    | nil => rw [hfe] at hmem; cases hmem
    | cons a l => simp [hfe]
  have hfilterT : st.templates.filter (fun t => t.id == T.id) = [T] :=
    filter_eq_singleton Template.id st.templates T hwf.templates_nodup hT _
      (by simp) (fun y _ hy => by simpa using hy)
  have hmapT : (st.templates.map (fun t => if t.id == T.id then
      { t with usage_count := T.usage_count + 1 } else t)).filter
      (fun t => t.id == T.id) =
      [{ T with usage_count := T.usage_count + 1 }] := by
    rw [map_ite_filter_of_sub (fun t => t.id == T.id) (fun t => t.id == T.id)
      (fun t => { t with usage_count := T.usage_count + 1 })
      (fun x => rfl) (fun x h => h) st.templates, hfilterT]
    rfl
  refine ⟨⟨"Project insert failed", ?_⟩, ?_, ?_, ?_, ?_⟩
  · simp only [createProject, if_neg hsne, htid, hfilterT,
      List.head?, Bool.false_eq_true, if_false]
  · simp only [createProject, if_neg hsne, htid, hfilterT, List.head?,
      Bool.false_eq_true, if_false]
  · simp only [createProject, if_neg hsne, htid, hfilterT, List.head?,
      Bool.false_eq_true, if_false]
  · simp only [createProject, if_neg hsne, htid, hfilterT, List.head?,
      Bool.false_eq_true, if_false, templateUsage, hmapT]
    rfl
  · simp only [templateUsage, hfilterT]
    rfl

/-- Template row for the C10 witness. -/
def w10T : Template :=
  { id := "t1", name := "T", description := "d", type := "react",
    files := [{ path := "/src/app.js", content := "x", type := "js" }],
    tags := [], is_featured := false, created_at := 0, usage_count := 5 }

/-- Session row for the C10 witness. -/
def w10Sess : Session :=
  { id := "s1", browser_fingerprint := "fp", ip_address := "ip",
    user_agent := "ua", status := "active", created_at := 0,
    last_activity := 0, expires_at := 10, metadata := none }

/-- Concrete state for the C10 witness. -/
def w10St : DbState :=
  { sessions := [w10Sess],
    projects := [], files := [], versions := [], collaborations := [],
    deployments := [], aiChats := [], templates := [w10T] }

/-- Input for the C10 witness. -/
def w10In : CreateProjectInput :=
  { name := "N", description := none, type := "react",
    template_id := some "t1", session_id := "s1" }

/-! ### Claim C1 — rollback of a single `modified` change -/

/-- Claim C1: for a project owned by `P.session_id`, a file `f` of the
project currently holding content `B`, and a version whose single
change is `modified` with `content_before = A` (non-null, being
`some A`) and `content_after = B`, `rollbackVersion` returns true,
rewrites `f` to content `A` (recomputing size and `updated_at`),
appends exactly one new version whose single change is
`{ modified, content_before := B, content_after := A }`, and touches
the project's `updated_at` — nothing else changes. -/
theorem c1_rollback_modified_single (st : DbState) (P : Project) (f : DbFile)
    (V : Version) (A B : String) (now : Nat) (vid rand : String)
    (hwf : WF st) (hP : P ∈ st.projects) (hf : f ∈ st.files)
    (hfp : f.project_id = P.id) (hfc : f.content = B)
    (hV : V ∈ st.versions) (hVp : V.project_id = P.id)
    (hch : V.file_changes = [{ file_id := f.id, action := .modified,
                               content_before := some A,
                               content_after := some B }]) :
    rollbackVersion st P.id V.id P.session_id now vid rand =
      ({ st with
          files := st.files.map (fun g => if g.id == f.id then
            { g with content := A, size := utf16Len A, updated_at := now }
          else g),
          versions := st.versions ++
            [{ id := vid, project_id := P.id,
               commit_hash := rollbackCommitHash now rand,
               message := "Rollback to version: " ++ V.message,
               author := "system", created_at := now,
               file_changes := [{ file_id := f.id, action := .modified,
                                  content_before := some B,
                                  content_after := some A }] }],
          projects := st.projects.map (fun p => if p.id == P.id then
            { p with updated_at := now } else p) },
       Except.ok true) ∧
    { f with content := A, size := utf16Len A, updated_at := now }
      ∈ (rollbackVersion st P.id V.id P.session_id now vid rand).1.files := by
  have hprojmem : P ∈ st.projects.filter (fun p =>
      p.id == P.id && p.session_id == P.session_id) :=
    List.mem_filter.mpr ⟨hP, by simp⟩
  have hprojne : ¬(st.projects.filter (fun p =>
      p.id == P.id && p.session_id == P.session_id)).isEmpty = true := by
    cases hfe : st.projects.filter (fun p =>
        p.id == P.id && p.session_id == P.session_id) with
    | nil => rw [hfe] at hprojmem; cases hprojmem
    | cons a l => simp [hfe]
  have hfilterV : st.versions.filter (fun v =>
      v.id == V.id && v.project_id == P.id) = [V] :=
    filter_eq_singleton Version.id st.versions V hwf.versions_nodup hV _
      (by simp [hVp]) (fun y _ hy => by
        rcases (Bool.and_eq_true _ _).mp hy with ⟨h1, _⟩
        simpa using h1)
  have hfind : (st.files.filter (fun g => g.project_id == P.id)).find?
      (fun g => g.id == f.id) = some f :=
    find?_filter_key DbFile.id st.files f hwf.files_nodup hf _ (by simp [hfp])
  have hmain : rollbackVersion st P.id V.id P.session_id now vid rand =
      ({ st with
          files := st.files.map (fun g => if g.id == f.id then
            { g with content := A, size := utf16Len A, updated_at := now }
          else g),
          versions := st.versions ++
            [{ id := vid, project_id := P.id,
               commit_hash := rollbackCommitHash now rand,
               message := "Rollback to version: " ++ V.message,
               author := "system", created_at := now,
               file_changes := [{ file_id := f.id, action := .modified,
                                  content_before := some B,
                                  content_after := some A }] }],
          projects := st.projects.map (fun p => if p.id == P.id then
            { p with updated_at := now } else p) },
       Except.ok true) := by
    simp only [rollbackVersion, if_neg hprojne, hfilterV, List.head?, hch,
      List.foldl_cons, List.foldl_nil, applyRollbackChange, hfind, hfc,
      List.nil_append]
  refine ⟨hmain, ?_⟩
  rw [hmain]
  have hmem := List.mem_map_of_mem (fun g : DbFile => if g.id == f.id then
    { g with content := A, size := utf16Len A, updated_at := now } else g) hf
  simpa using hmem

/-- File row for the C1 witness. -/
def w1File : DbFile :=
  { id := "f1", project_id := "p1", name := "a.js", path := "/a.js",
    content := "B", type := "js", size := 1, created_at := 0,
    updated_at := 0, is_deleted := false }

/-- Project row for the C1 witness. -/
def w1Proj : Project :=
  { id := "p1", name := "P", description := none, type := "react",
    template_id := none, session_id := "s1", created_at := 0,
    updated_at := 0, is_public := false, preview_url := none,
    deployment_url := none }

/-- Version row for the C1 witness: a single `modified` change from
`"A"` to `"B"` on `f1`. -/
def w1Ver : Version :=
  { id := "v1", project_id := "p1", commit_hash := "deadbeef",
    message := "edit", author := "me", created_at := 1,
    file_changes := [{ file_id := "f1", action := .modified,
                       content_before := some "A",
                       content_after := some "B" }] }

/-- Concrete state for the C1 witness. -/
def w1St : DbState :=
  { sessions := [], projects := [w1Proj], files := [w1File],
    versions := [w1Ver], collaborations := [], deployments := [],
    aiChats := [], templates := [] }

/-- Witness for C1: rolling back `v1` rewrites `f1` to content `A` and
appends the compensating version. -/
theorem c1_witness :
    rollbackVersion w1St "p1" "v1" "s1" 7 "nv" "rr" =
      ({ w1St with
          files := w1St.files.map (fun g => if g.id == "f1" then
            { g with content := "A", size := utf16Len "A", updated_at := 7 }
          else g),
          versions := w1St.versions ++
            [{ id := "nv", project_id := "p1",
               commit_hash := rollbackCommitHash 7 "rr",
               message := "Rollback to version: " ++ w1Ver.message,
               author := "system", created_at := 7,
               file_changes := [{ file_id := "f1", action := .modified,
                                  content_before := some "B",
                                  content_after := some "A" }] }],
          projects := w1St.projects.map (fun p => if p.id == "p1" then
            { p with updated_at := 7 } else p) },
       Except.ok true) :=
  (c1_rollback_modified_single w1St w1Proj w1File w1Ver "A" "B" 7 "nv" "rr"
    ⟨by decide, by decide, by decide, by decide, by decide⟩
    (by decide) (by decide) rfl rfl (by decide) rfl rfl).1

/-- Witness for C10: after the failing call the stored usage count of
`t1` is 6, yet no project was created. -/
theorem c10_witness :
    templateUsage (createProject w10St w10In 3 "pX" (fun _ => "fX") false).1 "t1"
      = some 6 ∧
    (createProject w10St w10In 3 "pX" (fun _ => "fX") false).1.projects = [] :=
  ⟨(c10_usage_increment_persists_on_failure w10St w10In w10T 3 "pX" (fun _ => "fX")
      ⟨by decide, by decide, by decide, by decide, by decide⟩ (by decide)
      (by decide) ⟨w10Sess, by decide, rfl⟩).2.2.2.1,
   (c10_usage_increment_persists_on_failure w10St w10In w10T 3 "pX" (fun _ => "fX")
      ⟨by decide, by decide, by decide, by decide, by decide⟩ (by decide)
      (by decide) ⟨w10Sess, by decide, rfl⟩).2.1⟩

/-! ### Claim C7 — template usage counting and snapshot copies -/

/-- One successful `createProject` from an existing template: sessions
untouched, the template's `usage_count` bumped by one (read value plus
one, written to the rows matching the id), template files copied as
fresh rows appended after the existing ones, and the new project row
returned. -/
theorem createProject_template_step (st : DbState) (input : CreateProjectInput)
    (T' : Template) (now : Nat) (pid : String) (fidn : Nat → String)
    (hnd : (st.templates.map Template.id).Nodup) (hT : T' ∈ st.templates)
    (htid : jsTruthy input.template_id = some T'.id)
    (hsess : ∃ s ∈ st.sessions, s.id = input.session_id) :
    (createProject st input now pid fidn true).1.sessions = st.sessions ∧
    (createProject st input now pid fidn true).1.templates =
      st.templates.map (fun t => if t.id == T'.id then
        { t with usage_count := T'.usage_count + 1 } else t) ∧
    (createProject st input now pid fidn true).1.files =
      st.files ++ T'.files.enum.map (fun q =>
        mkTemplateFileRow pid now (fidn q.1) q.2) ∧
    (createProject st input now pid fidn true).2 =
      Except.ok (mkProject input pid now) := by
  rcases hsess with ⟨s, hs, hsid⟩
  have hmem : s ∈ st.sessions.filter (fun t => t.id == input.session_id) :=
    List.mem_filter.mpr ⟨hs, by simp [hsid]⟩
  have hsne : ¬(st.sessions.filter
      (fun t => t.id == input.session_id)).isEmpty = true := by
    cases hfe : st.sessions.filter (fun t => t.id == input.session_id) with
    | nil => rw [hfe] at hmem; cases hmem
    | cons a l => simp [hfe]
  have hfilterT : st.templates.filter (fun t => t.id == T'.id) = [T'] :=
    filter_eq_singleton Template.id st.templates T' hnd hT _
      (by simp) (fun y _ hy => by simpa using hy)
  refine ⟨?_, ?_, ?_, ?_⟩ <;>
    simp only [createProject, if_neg hsne, htid, hfilterT, List.head?, if_true]

/-- Composing two usage-count writes keyed on the same template id
collapses to the second write. -/
theorem bumpTemplate_compose (tid : String) (u1 u2 : Nat) (t : Template) :
    (fun x : Template => if x.id == tid then { x with usage_count := u2 }
      else x) (if t.id == tid then { t with usage_count := u1 } else t)
    = (if t.id == tid then { t with usage_count := u2 } else t) := by
  by_cases h : (t.id == tid) = true <;> simp [h]

/-- N-fold repetition of `createProject` with a fixed input; step `n`
uses timestamp `nowF n`, project id `pidF n` and file ids `fidF n`. -/
def createProjectsN (st : DbState) (input : CreateProjectInput)
    (nowF : Nat → Nat) (pidF : Nat → String) (fidF : Nat → Nat → String) :
    Nat → DbState
  | 0 => st
  | n + 1 => (createProject (createProjectsN st input nowF pidF fidF n) input
      (nowF n) (pidF n) (fidF n) true).1

/-- Across `n` repetitions the sessions table is untouched and the
referenced template's row has its usage count raised by exactly `n`,
all other templates unchanged. -/
theorem createProjectsN_templates (st : DbState) (input : CreateProjectInput)
    (T : Template) (nowF : Nat → Nat) (pidF : Nat → String)
    (fidF : Nat → Nat → String)
    (hnd : (st.templates.map Template.id).Nodup) (hT : T ∈ st.templates)
    (htid : jsTruthy input.template_id = some T.id)
    (hsess : ∃ s ∈ st.sessions, s.id = input.session_id) :
    ∀ n, (createProjectsN st input nowF pidF fidF n).sessions = st.sessions ∧
      (createProjectsN st input nowF pidF fidF n).templates =
        st.templates.map (fun t => if t.id == T.id then
          { t with usage_count := T.usage_count + n } else t) := by
  intro n
  induction n with
  | zero =>
    refine ⟨rfl, ?_⟩
    have hpt : ∀ t ∈ st.templates, (if t.id == T.id then
        { t with usage_count := T.usage_count + 0 } else t) = id t := by
      intro t ht
      by_cases h : (t.id == T.id) = true
      · have ht2 : t = T :=
          List.inj_on_of_nodup_map hnd ht hT (by simpa using h)
        subst ht2
        simp [h]
      · simp [h]
    show st.templates = _
    rw [List.map_congr_left hpt, List.map_id]
  | succ n ih =>
    have hndn : ((createProjectsN st input nowF pidF fidF n).templates.map
        Template.id).Nodup := by
      rw [ih.2, List.map_map]
      have hids : ∀ t ∈ st.templates, (Template.id ∘ fun t =>
          if t.id == T.id then { t with usage_count := T.usage_count + n }
          else t) t = Template.id t := by
        intro t _
        by_cases h : (t.id == T.id) = true <;> simp [Function.comp, h]
      rw [List.map_congr_left hids]
      exact hnd
    have hTn : ({ T with usage_count := T.usage_count + n } : Template) ∈
        (createProjectsN st input nowF pidF fidF n).templates := by
      rw [ih.2]
      have := List.mem_map_of_mem (fun t : Template => if t.id == T.id then
        { t with usage_count := T.usage_count + n } else t) hT
      simpa using this
    have hsessn : ∃ s ∈ (createProjectsN st input nowF pidF fidF n).sessions,
        s.id = input.session_id := by
      rw [ih.1]; exact hsess
    have step := createProject_template_step
      (createProjectsN st input nowF pidF fidF n) input
      { T with usage_count := T.usage_count + n } (nowF n) (pidF n) (fidF n)
      hndn hTn htid hsessn
    refine ⟨step.1.trans ih.1, ?_⟩
    show (createProject (createProjectsN st input nowF pidF fidF n) input
      (nowF n) (pidF n) (fidF n) true).1.templates = _
    rw [step.2.1, ih.2, List.map_map]
    refine List.map_congr_left (fun t _ => ?_)
    exact bumpTemplate_compose T.id (T.usage_count + n) (T.usage_count + n + 1) t

/-- Claim C7: creating `N` projects from template `T` raises its stored
`usage_count` by exactly `N` (first conjunct, which at `N = 0` also
pins the baseline); each creation appends one file row per template
file, copying path/content/type verbatim with the name derived from
the last path segment (second and third conjuncts); and the copies are
independent of the template: `updateFile` never touches the templates
table (fourth conjunct). -/
theorem c7_template_usage_and_copies (st : DbState) (input : CreateProjectInput)
    (T : Template) (nowF : Nat → Nat) (pidF : Nat → String)
    (fidF : Nat → Nat → String) (hwf : WF st) (hT : T ∈ st.templates)
    (htid : jsTruthy input.template_id = some T.id)
    (hsess : ∃ s ∈ st.sessions, s.id = input.session_id) :
    (∀ N, templateUsage (createProjectsN st input nowF pidF fidF N) T.id
        = some (T.usage_count + N)) ∧
    ((createProject st input (nowF 0) (pidF 0) (fidF 0) true).1.files
        = st.files ++ T.files.enum.map (fun q =>
            mkTemplateFileRow (pidF 0) (nowF 0) (fidF 0 q.1) q.2)) ∧
    (∀ (pid2 : String) (now2 : Nat) (fid : String) (tf : TemplateFile),
      (mkTemplateFileRow pid2 now2 fid tf).path = tf.path ∧
      (mkTemplateFileRow pid2 now2 fid tf).content = tf.content ∧
      (mkTemplateFileRow pid2 now2 fid tf).type = tf.type ∧
      (mkTemplateFileRow pid2 now2 fid tf).name
        = jsOrStr (some (jsSplitLast tf.path "/")) tf.path) ∧
    (∀ (st2 : DbState) (input2 : UpdateFileInput) (now2 : Nat),
      (updateFile st2 input2 now2).1.templates = st2.templates) := by
  refine ⟨?_, ?_, ?_, ?_⟩
  · intro N
    have inv := createProjectsN_templates st input T nowF pidF fidF
      hwf.templates_nodup hT htid hsess N
    have hmapT : ((createProjectsN st input nowF pidF fidF N).templates).filter
        (fun t => t.id == T.id) =
        [{ T with usage_count := T.usage_count + N }] := by
      rw [inv.2, map_ite_filter_of_sub (fun t => t.id == T.id)
        (fun t => t.id == T.id)
        (fun t => { t with usage_count := T.usage_count + N })
        (fun x => rfl) (fun x h => h) st.templates,
        filter_eq_singleton Template.id st.templates T hwf.templates_nodup hT _
          (by simp) (fun y _ hy => by simpa using hy)]
      rfl
    simp only [templateUsage, hmapT, List.head?]
    rfl
  · exact (createProject_template_step st input T (nowF 0) (pidF 0) (fidF 0)
      hwf.templates_nodup hT htid hsess).2.2.1
  · intro pid2 now2 fid tf
    exact ⟨rfl, rfl, rfl, rfl⟩
  · intro st2 input2 now2
    unfold updateFile
    cases hh : (st2.files.filter (fun g => g.id == input2.id)).head? with
    | none => rfl
    | some e => rfl

/-- Template row for the C7 witness. -/
def w7T : Template :=
  { id := "t1", name := "T", description := "d", type := "react",
    files := [{ path := "/src/app.js", content := "ab", type := "js" }],
    tags := [], is_featured := false, created_at := 0, usage_count := 5 }

/-- Session row for the C7 witness. -/
def w7Sess : Session :=
  { id := "s1", browser_fingerprint := "fp", ip_address := "ip",
    user_agent := "ua", status := "active", created_at := 0,
    last_activity := 0, expires_at := 10, metadata := none }

/-- Concrete state for the C7 witness. -/
def w7St : DbState :=
  { sessions := [w7Sess], projects := [], files := [], versions := [],
    collaborations := [], deployments := [], aiChats := [],
    templates := [w7T] }

/-- Input for the C7 witness. -/
def w7In : CreateProjectInput :=
  { name := "N", description := none, type := "react",
    template_id := some "t1", session_id := "s1" }

/-- Witness for C7: two creations from `t1` raise its usage count from
5 to 7. -/
theorem c7_witness :
    templateUsage (createProjectsN w7St w7In (fun n => n)
      (fun n => "p" ++ toString n) (fun n _ => "f" ++ toString n) 2) "t1"
      = some 7 :=
  (c7_template_usage_and_copies w7St w7In w7T (fun n => n)
    (fun n => "p" ++ toString n) (fun n _ => "f" ++ toString n)
    ⟨by decide, by decide, by decide, by decide, by decide⟩
    (by decide) (by decide) ⟨w7Sess, by decide, rfl⟩).1 2

/-! ### Claim C4 — size derivation -/

/-- Concrete state for the C4 counterexample: rolling back `v1`
rewrites `f1` to the multi-byte content recorded in `content_before`. -/
def c4St : DbState :=
  { sessions := [], projects :=
      [{ id := "p1", name := "P", description := none, type := "react",
         template_id := none, session_id := "s1", created_at := 0,
         updated_at := 0, is_public := false, preview_url := none,
         deployment_url := none }],
    files :=
      [{ id := "f1", project_id := "p1", name := "a.js", path := "/a.js",
         content := "current", type := "js", size := 7, created_at := 0,
         updated_at := 0, is_deleted := false }],
    versions :=
      [{ id := "v1", project_id := "p1", commit_hash := "deadbeef",
         message := "m", author := "a", created_at := 1,
         file_changes := [{ file_id := "f1", action := .modified,
                            content_before := some "Hello 世界",
                            content_after := some "current" }] }],
    collaborations := [], deployments := [], aiChats := [], templates := [] }

/-- Counterexample to C4 as stated: a successful rollback write
persists `size = 8` (UTF-16 code units of `Hello 世界`) while the UTF-8
byte length of the persisted content is 12, so not every
content-writing operation derives size as the UTF-8 byte length. -/
theorem c4_counterexample :
    (rollbackVersion c4St "p1" "v1" "s1" 7 "nv" "rr").2.toOption = some true ∧
    ∃ g ∈ (rollbackVersion c4St "p1" "v1" "s1" 7 "nv" "rr").1.files,
      g.content = "Hello 世界" ∧ g.size = 8 ∧ utf8Len g.content = 12 ∧
      ¬ g.size = utf8Len g.content := by decide

/-- Claim C4 as amended: `createFile` and `updateFile` persist
`size = utf8Len content` — the UTF-8 byte length, exactly as claimed,
including multi-byte content — but the sizes persisted by rollback's
modify/restore branches and by template-file copying during project
creation are the JavaScript string length `utf16Len content` (UTF-16
code units), which differs on multi-byte content: `Hello 世界` gives 8
there, not the byte length 12. -/
theorem c4_size_semantics :
    (∀ (st : DbState) (input : CreateFileInput) (now : Nat) (fid : String),
      match (createFile st input now fid).2 with
      | .ok f => f.size = utf8Len f.content
      | .error _ => True) ∧
    (∀ (st : DbState) (input : UpdateFileInput) (now : Nat),
      match input.content, (updateFile st input now).2 with
      | some c, .ok f => f.content = c ∧ f.size = utf8Len c
      | _, _ => True) ∧
    (∀ (pid : String) (now : Nat) (fid : String) (tf : TemplateFile),
      (mkTemplateFileRow pid now fid tf).content = tf.content ∧
      (mkTemplateFileRow pid now fid tf).size = utf16Len tf.content) ∧
    (∀ (pid : String) (now : Nat) (snap : List DbFile)
        (acc : DbState × List FileChange) (c : FileChange),
      match c.action with
      | .created => True
      | _ => ∀ g ∈ (applyRollbackChange pid now snap acc c).1.files,
          g ∈ acc.1.files ∨ g.size = utf16Len g.content) ∧
    (utf16Len "Hello 世界" = 8 ∧ utf8Len "Hello 世界" = 12) := by
  refine ⟨?_, ?_, ?_, ?_, by decide⟩
  · intro st input now fid
    by_cases h1 : (st.projects.filter
        (fun p => p.id == input.project_id)).isEmpty = true
    · unfold createFile
      rw [if_pos h1]
      exact trivial
    · by_cases h2 : (st.files.filter (fun f =>
          f.project_id == input.project_id && f.path == input.path &&
          f.is_deleted == false)).isEmpty = true
      · unfold createFile
        rw [if_neg h1, if_neg (by rw [h2]; decide)]
      · have h2f : (st.files.filter (fun f =>
            f.project_id == input.project_id && f.path == input.path &&
            f.is_deleted == false)).isEmpty = false := by
          cases hb : (st.files.filter (fun f =>
              f.project_id == input.project_id && f.path == input.path &&
              f.is_deleted == false)).isEmpty
          · rfl
          · exact absurd hb h2
        unfold createFile
        rw [if_neg h1, if_pos (by rw [h2f]; rfl)]
        exact trivial
  · intro st input now
    rcases input with ⟨iid, ic, iname, ipath⟩
    cases ic with
    | none => exact trivial
    | some c =>
      cases hh : (st.files.filter (fun g => g.id == iid)).head? with
      | none => simp [updateFile, hh]
      | some e =>
        cases iname <;> cases ipath <;>
          simp [updateFile, hh, applyFileUpdate]
  · intro pid now fid tf
    exact ⟨rfl, rfl⟩
  · intro pid now snap acc c
    rcases c with ⟨cid, cact, cb, ca, n1, n2, n3⟩
    cases cact with
    | created => exact trivial
    | modified =>
      cases hcf : snap.find? (fun g => g.id == cid) with
      | none =>
        intro g hg
        exact Or.inl (by simpa [applyRollbackChange, hcf] using hg)
      | some cf =>
        cases cb with
        | none =>
          intro g hg
          exact Or.inl (by simpa [applyRollbackChange, hcf] using hg)
        | some b =>
          intro g hg
          simp only [applyRollbackChange, hcf] at hg
          rcases List.mem_map.mp hg with ⟨x, hx, rfl⟩
          by_cases h : (x.id == cid) = true
          · rw [if_pos h]
            exact Or.inr rfl
          · rw [if_neg h]
            exact Or.inl hx
    | deleted =>
      cases cb with
      | none => exact fun g hg => Or.inl hg
      | some b =>
        intro g hg
        simp only [applyRollbackChange] at hg
        by_cases hex : ((acc.1.files.filter
            (fun f => f.id == cid)).isEmpty) = true
        · rw [if_neg (by rw [hex]; decide)] at hg
          rcases List.mem_append.mp hg with hgl | hgr
          · exact Or.inl hgl
          · rcases List.mem_singleton.mp hgr with rfl
            exact Or.inr rfl
        · have hexf : (acc.1.files.filter (fun f => f.id == cid)).isEmpty
              = false := by
            cases hb : (acc.1.files.filter (fun f => f.id == cid)).isEmpty
            · rfl
            · exact absurd hb hex
          rw [if_pos (by rw [hexf]; rfl)] at hg
          rcases List.mem_map.mp hg with ⟨x, hx, rfl⟩
          by_cases h : (x.id == cid) = true
          · rw [if_pos h]
            exact Or.inr rfl
          · rw [if_neg h]
            exact Or.inl hx

/-! ### Claim C5 — commit hashes -/

/-- The concatenated hex rendering of a word list has eight characters
per word. -/
theorem length_hexcat (ws : List Nat) :
    (ws.foldr (fun w acc => toHexChars8 w ++ acc) []).length = 8 * ws.length := by
  induction ws with
  | nil => rfl
  | cons w ws ih =>
    have h8 : (toHexChars8 w).length = 8 := rfl
    show (toHexChars8 w ++ ws.foldr _ []).length = _
    rw [List.length_append, h8, ih, List.length_cons]
    omega

/-- A SHA-256 hex digest always has 64 characters. -/
theorem sha256Hex_length (s : String) : (sha256Hex s).length = 64 := by
  have h := length_hexcat (sha256Words (utf8Bytes s))
  have h8 : (sha256Words (utf8Bytes s)).length = 8 := rfl
  rw [h8] at h
  exact h

/-- The commit hash computed by `createVersion` always has exactly 8
characters. -/
theorem mkCommitHash_length (changes : List FileChange) (iso pid : String) :
    (mkCommitHash changes iso pid).length = 8 := by
  have h64 : (sha256Hex (serializeChanges changes ++ iso ++ pid)).data.length
      = 64 := sha256Hex_length _
  show ((sha256Hex (serializeChanges changes ++ iso ++ pid)).data.take 8).length = 8
  rw [List.length_take, h64]
  omega

/-- Concrete state for the C5 counterexample. -/
def c5St : DbState :=
  { sessions := [], projects :=
      [{ id := "p1", name := "P", description := none, type := "react",
         template_id := none, session_id := "s1", created_at := 0,
         updated_at := 0, is_public := false, preview_url := none,
         deployment_url := none }],
    files := [], versions :=
      [{ id := "v1", project_id := "p1", commit_hash := "deadbeef",
         message := "m", author := "a", created_at := 1, file_changes := [] }],
    collaborations := [], deployments := [], aiChats := [], templates := [] }

/-- Counterexample to C5 as stated: the version appended by a rollback
carries commit hash `rollback-5-ab`, which has 13 characters, not 8 —
so not every persisted version has an 8-character deterministic hash. -/
theorem c5_counterexample :
    (rollbackVersion c5St "p1" "v1" "s1" 5 "nv" "ab").2.toOption = some true ∧
    ∃ v ∈ (rollbackVersion c5St "p1" "v1" "s1" 5 "nv" "ab").1.versions,
      v.commit_hash = "rollback-5-ab" ∧ v.commit_hash.length = 13 ∧
      v.commit_hash.length ≠ 8 := by decide

/-- Claim C5 as amended: versions written by `createVersion` carry a
commit hash that is a deterministic function (`mkCommitHash`, a
truncated SHA-256) of the serialized file changes, the creation
timestamp's ISO rendering and the project id, and that hash has exactly
8 characters; but versions appended by `rollbackVersion` instead carry
`rollback-<Date.now()>-<random suffix>`, whose length is
`9 + |timestamp digits| + 1 + |suffix|` — never 8 — and which varies
with the random suffix alone, so it is not deterministic in the change
payload, timestamp and project id. -/
theorem c5_commit_hash_semantics :
    (∀ (st : DbState) (input : CreateVersionInput) (now : JsDate) (fid : String),
      match (createVersion st input now fid).2 with
      | .ok v => v.commit_hash
            = mkCommitHash input.file_changes now.iso input.project_id ∧
          v.commit_hash.length = 8
      | .error _ => True) ∧
    (∀ (changes : List FileChange) (iso pid : String),
      (mkCommitHash changes iso pid).length = 8) ∧
    (∀ (now : Nat) (rand : String),
      (rollbackCommitHash now rand).length
        = 9 + (toString now).length + 1 + rand.length ∧
      (rollbackCommitHash now rand).length ≠ 8) ∧
    rollbackCommitHash 0 "a" ≠ rollbackCommitHash 0 "b" := by
  refine ⟨?_, mkCommitHash_length, ?_, by decide⟩
  · intro st input now fid
    by_cases h : (st.projects.filter
        (fun p => p.id == input.project_id)).isEmpty = true
    · unfold createVersion
      rw [if_pos h]
      exact trivial
    · unfold createVersion
      rw [if_neg h]
      exact ⟨rfl, mkCommitHash_length _ _ _⟩
  · intro now rand
    have hl : (rollbackCommitHash now rand).length
        = 9 + (toString now).length + 1 + rand.length := by
      have h9 : ("rollback-" : String).length = 9 := rfl
      have h1 : ("-" : String).length = 1 := rfl
      show ((("rollback-" ++ toString now) ++ "-") ++ rand).length = _
      rw [String.length_append, String.length_append, String.length_append,
        h9, h1]
    exact ⟨hl, by rw [hl]; omega⟩

/-! ### Claim C2 — rollback of a deletion

The rollback loop processes changes in list order against live rows;
the lemmas below show that iterations whose change references another
file id leave the rows of `fid`, the versions table, and the already
accumulated compensating changes untouched (up to appending). -/

/-- One rollback iteration for a change referencing a different file id
preserves the rows of `fid` and the versions table, and only appends to
the accumulated compensating changes. -/
theorem applyRollbackChange_frame (pid : String) (now : Nat)
    (snap : List DbFile) (fid : String) (c : FileChange)
    (hne : c.file_id ≠ fid) (acc : DbState × List FileChange) :
    (applyRollbackChange pid now snap acc c).1.files.filter
        (fun g => g.id == fid) = acc.1.files.filter (fun g => g.id == fid) ∧
    (applyRollbackChange pid now snap acc c).1.versions = acc.1.versions ∧
    ∃ t, (applyRollbackChange pid now snap acc c).2 = acc.2 ++ t := by
  rcases c with ⟨cid, cact, cb, ca, n1, n2, n3⟩
  have hne2 : cid ≠ fid := hne
  have hcpf : ∀ x : DbFile, (x.id == cid) = true → (x.id == fid) = false := by
    intro x hx
    have hxe : x.id = cid := by simpa using hx
    simp [hxe, hne2]
  cases cact with
  | created =>
    cases hcf : snap.find? (fun g => g.id == cid) with
    | none =>
      have happ : applyRollbackChange pid now snap acc
          ⟨cid, .created, cb, ca, n1, n2, n3⟩ = (acc.1, acc.2) := by
        simp only [applyRollbackChange, hcf]
      rw [happ]
      exact ⟨rfl, rfl, [], (List.append_nil _).symm⟩
    | some cf =>
      have happ : applyRollbackChange pid now snap acc
          ⟨cid, .created, cb, ca, n1, n2, n3⟩ =
          ({ acc.1 with files := acc.1.files.map (fun f =>
              if f.id == cid
              then { f with is_deleted := true, updated_at := now }
              else f) },
           acc.2 ++ [{ file_id := cid, action := .deleted,
                       content_before := some cf.content,
                       content_after := none }]) := by
        simp only [applyRollbackChange, hcf]
      rw [happ]
      refine ⟨?_, rfl, ⟨_, rfl⟩⟩
      exact map_ite_filter_of_pres (fun x : DbFile => x.id == cid)
        (fun x : DbFile => x.id == fid)
        (fun f : DbFile => { f with is_deleted := true, updated_at := now })
        (fun x => rfl) hcpf acc.1.files
  | modified =>
    cases hcf : snap.find? (fun g => g.id == cid) with
    | none =>
      have happ : applyRollbackChange pid now snap acc
          ⟨cid, .modified, cb, ca, n1, n2, n3⟩ = (acc.1, acc.2) := by
        cases cb <;> simp only [applyRollbackChange, hcf]
      rw [happ]
      exact ⟨rfl, rfl, [], (List.append_nil _).symm⟩
    | some cf =>
      cases cb with
      | none =>
        have happ : applyRollbackChange pid now snap acc
            ⟨cid, .modified, none, ca, n1, n2, n3⟩ = (acc.1, acc.2) := by
          simp only [applyRollbackChange, hcf]
        rw [happ]
        exact ⟨rfl, rfl, [], (List.append_nil _).symm⟩
      | some b =>
        have happ : applyRollbackChange pid now snap acc
            ⟨cid, .modified, some b, ca, n1, n2, n3⟩ =
            ({ acc.1 with files := acc.1.files.map (fun f =>
                if f.id == cid
                then { f with content := b, size := utf16Len b, updated_at := now }
                else f) },
             acc.2 ++ [{ file_id := cid, action := .modified,
                         content_before := some cf.content,
                         content_after := some b }]) := by
          simp only [applyRollbackChange, hcf]
        rw [happ]
        refine ⟨?_, rfl, ⟨_, rfl⟩⟩
        exact map_ite_filter_of_pres (fun x : DbFile => x.id == cid)
          (fun x : DbFile => x.id == fid)
          (fun f : DbFile => { f with content := b, size := utf16Len b, updated_at := now })
          (fun x => rfl) hcpf acc.1.files
  | deleted =>
    cases cb with
    | none =>
      have happ : applyRollbackChange pid now snap acc
          ⟨cid, .deleted, none, ca, n1, n2, n3⟩ = (acc.1, acc.2) := by
        simp only [applyRollbackChange]
      rw [happ]
      exact ⟨rfl, rfl, [], (List.append_nil _).symm⟩
    | some b =>
      by_cases hex : (acc.1.files.filter (fun f => f.id == cid)).isEmpty = true
      · have happ : applyRollbackChange pid now snap acc
            ⟨cid, .deleted, some b, ca, n1, n2, n3⟩ =
            ({ acc.1 with files := acc.1.files ++
                [{ id := cid, project_id := pid,
                   name := (recoverFileInfo acc.1 pid cid).1,
                   path := (recoverFileInfo acc.1 pid cid).2.1,
                   content := b, type := (recoverFileInfo acc.1 pid cid).2.2,
                   size := utf16Len b, created_at := now, updated_at := now,
                   is_deleted := false }] },
             acc.2 ++ [{ file_id := cid, action := .created,
                         content_before := none,
                         content_after := some b }]) := by
          simp only [applyRollbackChange, if_neg (by rw [hex]; decide :
            ¬(!(acc.1.files.filter (fun f => f.id == cid)).isEmpty) = true)]
        rw [happ]
        refine ⟨?_, rfl, ⟨_, rfl⟩⟩
        rw [List.filter_append]
        have hrow : (([{ id := cid, project_id := pid,
                         name := (recoverFileInfo acc.1 pid cid).1,
                         path := (recoverFileInfo acc.1 pid cid).2.1,
                         content := b,
                         type := (recoverFileInfo acc.1 pid cid).2.2,
                         size := utf16Len b, created_at := now,
                         updated_at := now,
                         is_deleted := false }] : List DbFile).filter
              (fun g => g.id == fid)) = [] := by
          rw [List.filter_cons, if_neg (by simpa using hne2)]
          rfl
        rw [hrow, List.append_nil]
      · have hexf : (acc.1.files.filter (fun f => f.id == cid)).isEmpty
            = false := by
          cases hb : (acc.1.files.filter (fun f => f.id == cid)).isEmpty
          · rfl
          · exact absurd hb hex
        have happ : applyRollbackChange pid now snap acc
            ⟨cid, .deleted, some b, ca, n1, n2, n3⟩ =
            ({ acc.1 with files := acc.1.files.map (fun f =>
                if f.id == cid
                then { f with content := b, size := utf16Len b,
                              is_deleted := false, updated_at := now }
                else f) },
             acc.2 ++ [{ file_id := cid, action := .created,
                         content_before := none,
                         content_after := some b }]) := by
          simp only [applyRollbackChange, if_pos (by rw [hexf]; rfl :
            (!(acc.1.files.filter (fun f => f.id == cid)).isEmpty) = true)]
        rw [happ]
        refine ⟨?_, rfl, ⟨_, rfl⟩⟩
        exact map_ite_filter_of_pres (fun x : DbFile => x.id == cid)
          (fun x : DbFile => x.id == fid)
          (fun f : DbFile => { f with content := b, size := utf16Len b,
                                      is_deleted := false, updated_at := now })
          (fun x => rfl) hcpf acc.1.files

/-- A run of rollback iterations none of which references `fid`
preserves the rows of `fid` and the versions table, and only appends to
the accumulated compensating changes. -/
theorem applyRollbackChanges_frame (pid : String) (now : Nat)
    (snap : List DbFile) (fid : String) (changes : List FileChange)
    (h : ∀ c ∈ changes, c.file_id ≠ fid) (acc : DbState × List FileChange) :
    (changes.foldl (applyRollbackChange pid now snap) acc).1.files.filter
        (fun g => g.id == fid) = acc.1.files.filter (fun g => g.id == fid) ∧
    (changes.foldl (applyRollbackChange pid now snap) acc).1.versions
        = acc.1.versions ∧
    ∃ t, (changes.foldl (applyRollbackChange pid now snap) acc).2
        = acc.2 ++ t := by
  induction changes generalizing acc with
  | nil => exact ⟨rfl, rfl, [], (List.append_nil _).symm⟩
  | cons c cs ih =>
    have hstep := applyRollbackChange_frame pid now snap fid c
      (h c (List.mem_cons_self c cs)) acc
    have hrest := ih (fun x hx => h x (List.mem_cons_of_mem _ hx))
      (applyRollbackChange pid now snap acc c)
    refine ⟨hrest.1.trans hstep.1, hrest.2.1.trans hstep.2.1, ?_⟩
    rcases hstep.2.2 with ⟨t1, ht1⟩
    rcases hrest.2.2 with ⟨t2, ht2⟩
    exact ⟨t1 ++ t2, by rw [List.foldl_cons, ht2, ht1, List.append_assoc]⟩

/-- Once the ownership and version lookups succeed, `rollbackVersion`
is the fold of `applyRollbackChange` over the target version's changes,
followed by appending the rollback version and touching the project. -/
theorem rollbackVersion_reduce (st : DbState)
    (projectId versionId sessionId : String) (V : Version) (now : Nat)
    (vid rand : String)
    (hne : ¬(st.projects.filter (fun p =>
      p.id == projectId && p.session_id == sessionId)).isEmpty = true)
    (hV : st.versions.filter (fun v =>
      v.id == versionId && v.project_id == projectId) = [V]) :
    rollbackVersion st projectId versionId sessionId now vid rand =
      ({ (V.file_changes.foldl (applyRollbackChange projectId now
            (st.files.filter (fun f => f.project_id == projectId)))
            (st, [])).1 with
          versions := (V.file_changes.foldl (applyRollbackChange projectId now
              (st.files.filter (fun f => f.project_id == projectId)))
              (st, [])).1.versions ++
            [{ id := vid, project_id := projectId,
               commit_hash := rollbackCommitHash now rand,
               message := "Rollback to version: " ++ V.message,
               author := "system", created_at := now,
               file_changes := (V.file_changes.foldl
                 (applyRollbackChange projectId now
                   (st.files.filter (fun f => f.project_id == projectId)))
                 (st, [])).2 }],
          projects := (V.file_changes.foldl (applyRollbackChange projectId now
              (st.files.filter (fun f => f.project_id == projectId)))
              (st, [])).1.projects.map
            (fun p => if p.id == projectId then { p with updated_at := now }
             else p) },
       Except.ok true) := by
  simp only [rollbackVersion, if_neg hne, hV, List.head?]

/-- Version row for the C2 counterexample: two changes reference the
same file — a deletion followed by a creation. -/
def c2xV : Version :=
  { id := "v1", project_id := "p1", commit_hash := "deadbeef",
    message := "m", author := "a", created_at := 1,
    file_changes := [{ file_id := "f1", action := .deleted,
                       content_before := some "Y", content_after := none },
                     { file_id := "f1", action := .created,
                       content_before := none, content_after := some "Y" }] }

/-- Concrete state for the C2 counterexample: `f1` is currently
soft-deleted. -/
def c2xSt : DbState :=
  { sessions := [], projects :=
      [{ id := "p1", name := "P", description := none, type := "react",
         template_id := none, session_id := "s1", created_at := 0,
         updated_at := 0, is_public := false, preview_url := none,
         deployment_url := none }],
    files :=
      [{ id := "f1", project_id := "p1", name := "a.js", path := "/a.js",
         content := "old", type := "js", size := 3, created_at := 0,
         updated_at := 0, is_deleted := true }],
    versions := [c2xV],
    collaborations := [], deployments := [], aiChats := [], templates := [] }

/-- Counterexample to C2 as stated: the version `v1` contains a change
`{file_id: f1, action: deleted, content_before: Y}` with `Y` non-null
and `f1` is currently soft-deleted, yet after a successful rollback the
row for `f1` has `is_deleted = true` — the later change of the same
version referencing the same file re-deletes it through the stale
snapshot — so the claim fails for versions merely *containing* the
deletion entry. -/
theorem c2_counterexample :
    (rollbackVersion c2xSt "p1" "v1" "s1" 7 "nv" "rr").2.toOption
      = some true ∧
    ({ file_id := "f1", action := .deleted, content_before := some "Y",
       content_after := none } : FileChange) ∈ c2xV.file_changes ∧
    (∃ g ∈ c2xSt.files, g.id = "f1" ∧ g.is_deleted = true) ∧
    (∀ g ∈ (rollbackVersion c2xSt "p1" "v1" "s1" 7 "nv" "rr").1.files,
      g.id = "f1" → g.is_deleted = true) := by decide

/-- Claim C2 as amended: the claim holds when exactly one change of the
target version references the file — `V.file_changes` splits as
`pre ++ deletion-entry :: post` with no entry of `pre` or `post`
referencing `fid`.  Then, whether the row for `fid` is soft-deleted or
absent entirely, rollback succeeds and leaves a row for `fid` with
`is_deleted = false`, content `Y` and the UTF-16 size of `Y`; when the
row was absent its name/path/type come from `recoverFileInfo`, the
heuristic scan of the project's versions whose fallbacks are the
`file_<id-fragment>`-style synthetic names, `restored_file`,
`/restored_file`, and an extension-derived type defaulting to `js`;
and the appended rollback version contains the compensating change
`{action: created, content_before: null, content_after: Y}`. -/
theorem c2_rollback_of_deletion (st : DbState) (P : Project) (V : Version)
    (fid Y : String) (pre post : List FileChange) (now : Nat)
    (vid rand : String) (hwf : WF st) (hP : P ∈ st.projects)
    (hV : V ∈ st.versions) (hVp : V.project_id = P.id)
    (hch : V.file_changes = pre ++
      ({ file_id := fid, action := .deleted, content_before := some Y,
         content_after := none } : FileChange) :: post)
    (hpre : ∀ c ∈ pre, c.file_id ≠ fid)
    (hpost : ∀ c ∈ post, c.file_id ≠ fid)
    (hrow : (∃ g ∈ st.files, g.id = fid ∧ g.is_deleted = true) ∨
      (∀ g ∈ st.files, g.id ≠ fid)) :
    (rollbackVersion st P.id V.id P.session_id now vid rand).2
      = Except.ok true ∧
    (∃ g ∈ (rollbackVersion st P.id V.id P.session_id now vid rand).1.files,
      g.id = fid ∧ g.is_deleted = false ∧ g.content = Y ∧
      g.size = utf16Len Y) ∧
    ((∀ g ∈ st.files, g.id ≠ fid) →
      ∃ g ∈ (rollbackVersion st P.id V.id P.session_id now vid rand).1.files,
        g.id = fid ∧ g.name = (recoverFileInfo st P.id fid).1 ∧
        g.path = (recoverFileInfo st P.id fid).2.1 ∧
        g.type = (recoverFileInfo st P.id fid).2.2) ∧
    (∃ v ∈ (rollbackVersion st P.id V.id P.session_id now vid rand).1.versions,
      v.id = vid ∧ v.message = "Rollback to version: " ++ V.message ∧
      ({ file_id := fid, action := .created, content_before := none,
         content_after := some Y } : FileChange) ∈ v.file_changes) := by
  have hprojmem : P ∈ st.projects.filter (fun p =>
      p.id == P.id && p.session_id == P.session_id) :=
    List.mem_filter.mpr ⟨hP, by simp⟩
  have hprojne : ¬(st.projects.filter (fun p =>
      p.id == P.id && p.session_id == P.session_id)).isEmpty = true := by
    cases hfe : st.projects.filter (fun p =>
        p.id == P.id && p.session_id == P.session_id) with
    | nil => rw [hfe] at hprojmem; cases hprojmem
    | cons a l => simp [hfe]
  have hfilterV : st.versions.filter (fun v =>
      v.id == V.id && v.project_id == P.id) = [V] :=
    filter_eq_singleton Version.id st.versions V hwf.versions_nodup hV _
      (by simp [hVp]) (fun y _ hy => by
        rcases (Bool.and_eq_true _ _).mp hy with ⟨h1, _⟩
        simpa using h1)
  have hred := rollbackVersion_reduce st P.id V.id P.session_id V now vid rand
    hprojne hfilterV
  generalize hsn : st.files.filter (fun f => f.project_id == P.id) = snap at hred
  have hframePre := applyRollbackChanges_frame P.id now snap fid pre hpre
    (st, ([] : List FileChange))
  obtain ⟨accPre, haccPre⟩ : ∃ a, pre.foldl
      (applyRollbackChange P.id now snap) (st, ([] : List FileChange)) = a :=
    ⟨_, rfl⟩
  rw [haccPre] at hframePre
  dsimp only at hframePre
  rcases hrow with ⟨g0, hg0, hgid, hgdel⟩ | habs
  · -- the row for fid exists and is soft-deleted: restore in place
    have hfilterg : st.files.filter (fun g => g.id == fid) = [g0] :=
      filter_eq_singleton DbFile.id st.files g0 hwf.files_nodup hg0 _
        (by simp [hgid]) (fun y _ hy => by
          have h2 : y.id = fid := by simpa using hy
          rw [h2, hgid])
    have hexf : (accPre.1.files.filter (fun f => f.id == fid)).isEmpty
        = false := by
      rw [hframePre.1, hfilterg]; rfl
    have hmid : applyRollbackChange P.id now snap accPre
        { file_id := fid, action := .deleted, content_before := some Y,
          content_after := none } =
      ({ accPre.1 with files := accPre.1.files.map (fun f =>
          if f.id == fid
          then { f with content := Y, size := utf16Len Y,
                        is_deleted := false, updated_at := now }
          else f) },
       accPre.2 ++ [{ file_id := fid, action := .created,
                      content_before := none,
                      content_after := some Y }]) := by
      simp only [applyRollbackChange, if_pos (by rw [hexf]; rfl :
        (!(accPre.1.files.filter (fun f => f.id == fid)).isEmpty) = true)]
    have hframePost := applyRollbackChanges_frame P.id now snap fid post hpost
      (applyRollbackChange P.id now snap accPre
        { file_id := fid, action := .deleted, content_before := some Y,
          content_after := none })
    obtain ⟨res, hres⟩ : ∃ r, post.foldl (applyRollbackChange P.id now snap)
        (applyRollbackChange P.id now snap accPre
          { file_id := fid, action := .deleted, content_before := some Y,
            content_after := none }) = r := ⟨_, rfl⟩
    rw [hres, hmid] at hframePost
    have hfiltermid : (accPre.1.files.map (fun f =>
        if f.id == fid
        then { f with content := Y, size := utf16Len Y,
                      is_deleted := false, updated_at := now }
        else f)).filter (fun g => g.id == fid) =
        [{ g0 with content := Y, size := utf16Len Y, is_deleted := false,
                   updated_at := now }] := by
      rw [map_ite_filter_of_sub (fun f : DbFile => f.id == fid)
          (fun f : DbFile => f.id == fid)
          (fun f : DbFile => { f with content := Y, size := utf16Len Y,
                                      is_deleted := false, updated_at := now })
          (fun x => rfl) (fun x h => h) accPre.1.files,
        hframePre.1, hfilterg]
      rfl
    have hfinal : res.1.files.filter (fun g => g.id == fid) =
        [{ g0 with content := Y, size := utf16Len Y, is_deleted := false,
                   updated_at := now }] :=
      hframePost.1.trans hfiltermid
    have hfold : V.file_changes.foldl (applyRollbackChange P.id now snap)
        (st, ([] : List FileChange)) = res := by
      rw [hch, List.foldl_append, haccPre, List.foldl_cons, hres]
    rw [hfold] at hred
    have hmemrow : ({ g0 with content := Y, size := utf16Len Y,
                              is_deleted := false,
                              updated_at := now } : DbFile)
        ∈ res.1.files :=
      List.mem_of_mem_filter (p := fun g => g.id == fid)
        (by rw [hfinal]; exact List.mem_singleton_self _)
    refine ⟨by rw [hred], ?_, ?_, ?_⟩
    · refine ⟨{ g0 with content := Y, size := utf16Len Y,
                        is_deleted := false, updated_at := now },
        ?_, hgid, rfl, rfl, rfl⟩
      rw [hred]
      exact hmemrow
    · intro habs2
      exact absurd hgid (habs2 g0 hg0)
    · rcases hframePost.2.2 with ⟨t, ht⟩
      refine ⟨{ id := vid, project_id := P.id,
                commit_hash := rollbackCommitHash now rand,
                message := "Rollback to version: " ++ V.message,
                author := "system", created_at := now,
                file_changes := res.2 },
        ?_, rfl, rfl, ?_⟩
      · rw [hred]
        exact List.mem_append_right _ (List.mem_singleton_self _)
      · show _ ∈ res.2
        rw [ht]
        exact List.mem_append_left _
          (List.mem_append_right _ (List.mem_singleton_self _))
  · -- no row for fid at all: re-create it from recovered metadata
    have hfilterg : st.files.filter (fun g => g.id == fid) = [] :=
      List.filter_eq_nil_iff.mpr (fun g hg hh =>
        habs g hg (by simpa using hh))
    have hexf : (accPre.1.files.filter (fun f => f.id == fid)).isEmpty
        = true := by
      rw [hframePre.1, hfilterg]; rfl
    have hmid : applyRollbackChange P.id now snap accPre
        { file_id := fid, action := .deleted, content_before := some Y,
          content_after := none } =
      ({ accPre.1 with files := accPre.1.files ++
          [{ id := fid, project_id := P.id,
             name := (recoverFileInfo accPre.1 P.id fid).1,
             path := (recoverFileInfo accPre.1 P.id fid).2.1,
             content := Y, type := (recoverFileInfo accPre.1 P.id fid).2.2,
             size := utf16Len Y, created_at := now, updated_at := now,
             is_deleted := false }] },
       accPre.2 ++ [{ file_id := fid, action := .created,
                      content_before := none,
                      content_after := some Y }]) := by
      simp only [applyRollbackChange, if_neg (by rw [hexf]; decide :
        ¬(!(accPre.1.files.filter (fun f => f.id == fid)).isEmpty) = true)]
    have hrecov : recoverFileInfo accPre.1 P.id fid
        = recoverFileInfo st P.id fid := by
      unfold recoverFileInfo
      rw [hframePre.2.1]
    have hframePost := applyRollbackChanges_frame P.id now snap fid post hpost
      (applyRollbackChange P.id now snap accPre
        { file_id := fid, action := .deleted, content_before := some Y,
          content_after := none })
    obtain ⟨res, hres⟩ : ∃ r, post.foldl (applyRollbackChange P.id now snap)
        (applyRollbackChange P.id now snap accPre
          { file_id := fid, action := .deleted, content_before := some Y,
            content_after := none }) = r := ⟨_, rfl⟩
    rw [hres, hmid] at hframePost
    have hfiltermid : ((accPre.1.files ++
        [{ id := fid, project_id := P.id,
           name := (recoverFileInfo accPre.1 P.id fid).1,
           path := (recoverFileInfo accPre.1 P.id fid).2.1,
           content := Y, type := (recoverFileInfo accPre.1 P.id fid).2.2,
           size := utf16Len Y, created_at := now, updated_at := now,
           is_deleted := false }] : List DbFile)).filter
          (fun g => g.id == fid) =
        [{ id := fid, project_id := P.id,
           name := (recoverFileInfo accPre.1 P.id fid).1,
           path := (recoverFileInfo accPre.1 P.id fid).2.1,
           content := Y, type := (recoverFileInfo accPre.1 P.id fid).2.2,
           size := utf16Len Y, created_at := now, updated_at := now,
           is_deleted := false }] := by
      rw [List.filter_append, hframePre.1, hfilterg, List.filter_cons,
        if_pos (by simp)]
      rfl
    have hfinal : res.1.files.filter (fun g => g.id == fid) =
        [{ id := fid, project_id := P.id,
           name := (recoverFileInfo accPre.1 P.id fid).1,
           path := (recoverFileInfo accPre.1 P.id fid).2.1,
           content := Y, type := (recoverFileInfo accPre.1 P.id fid).2.2,
           size := utf16Len Y, created_at := now, updated_at := now,
           is_deleted := false }] :=
      hframePost.1.trans hfiltermid
    have hfold : V.file_changes.foldl (applyRollbackChange P.id now snap)
        (st, ([] : List FileChange)) = res := by
      rw [hch, List.foldl_append, haccPre, List.foldl_cons, hres]
    rw [hfold] at hred
    have hmemrow : ({ id := fid, project_id := P.id,
                      name := (recoverFileInfo accPre.1 P.id fid).1,
                      path := (recoverFileInfo accPre.1 P.id fid).2.1,
                      content := Y,
                      type := (recoverFileInfo accPre.1 P.id fid).2.2,
                      size := utf16Len Y, created_at := now,
                      updated_at := now,
                      is_deleted := false } : DbFile) ∈ res.1.files :=
      List.mem_of_mem_filter (p := fun g => g.id == fid)
        (by rw [hfinal]; exact List.mem_singleton_self _)
    refine ⟨by rw [hred], ?_, ?_, ?_⟩
    · refine ⟨{ id := fid, project_id := P.id,
                name := (recoverFileInfo accPre.1 P.id fid).1,
                path := (recoverFileInfo accPre.1 P.id fid).2.1,
                content := Y,
                type := (recoverFileInfo accPre.1 P.id fid).2.2,
                size := utf16Len Y, created_at := now, updated_at := now,
                is_deleted := false },
        ?_, rfl, rfl, rfl, rfl⟩
      rw [hred]
      exact hmemrow
    · intro _
      refine ⟨{ id := fid, project_id := P.id,
                name := (recoverFileInfo accPre.1 P.id fid).1,
                path := (recoverFileInfo accPre.1 P.id fid).2.1,
                content := Y,
                type := (recoverFileInfo accPre.1 P.id fid).2.2,
                size := utf16Len Y, created_at := now, updated_at := now,
                is_deleted := false },
        ?_, rfl, ?_, ?_, ?_⟩
      · rw [hred]
        exact hmemrow
      · show (recoverFileInfo accPre.1 P.id fid).1 = _
        rw [hrecov]
      · show (recoverFileInfo accPre.1 P.id fid).2.1 = _
        rw [hrecov]
      · show (recoverFileInfo accPre.1 P.id fid).2.2 = _
        rw [hrecov]
    · rcases hframePost.2.2 with ⟨t, ht⟩
      refine ⟨{ id := vid, project_id := P.id,
                commit_hash := rollbackCommitHash now rand,
                message := "Rollback to version: " ++ V.message,
                author := "system", created_at := now,
                file_changes := res.2 },
        ?_, rfl, rfl, ?_⟩
      · rw [hred]
        exact List.mem_append_right _ (List.mem_singleton_self _)
      · show _ ∈ res.2
        rw [ht]
        exact List.mem_append_left _
          (List.mem_append_right _ (List.mem_singleton_self _))

/-- Witness for C4 (amended): a template file with multi-byte content
is copied with UTF-16 size 8, while a created file with the same
content gets UTF-8 size 12. -/
theorem c4_witness :
    (mkTemplateFileRow "p1" 0 "f1"
      { path := "/a.js", content := "Hello 世界", type := "js" }).size
      = utf16Len "Hello 世界" ∧
    utf16Len "Hello 世界" = 8 ∧ utf8Len "Hello 世界" = 12 :=
  ⟨(c4_size_semantics.2.2.1 "p1" 0 "f1"
      { path := "/a.js", content := "Hello 世界", type := "js" }).2,
   c4_size_semantics.2.2.2.2⟩

/-- Witness for C5 (amended): an instantiated createVersion hash has
length 8 and an instantiated rollback hash does not. -/
theorem c5_witness :
    (mkCommitHash [] "2024-01-01T00:00:00.000Z" "p1").length = 8 ∧
    (rollbackCommitHash 5 "ab").length ≠ 8 :=
  ⟨c5_commit_hash_semantics.2.1 [] "2024-01-01T00:00:00.000Z" "p1",
   (c5_commit_hash_semantics.2.2.1 5 "ab").2⟩

/-- Project row for the C2 witness. -/
def w2Proj : Project :=
  { id := "p1", name := "P", description := none, type := "react",
    template_id := none, session_id := "s1", created_at := 0,
    updated_at := 0, is_public := false, preview_url := none,
    deployment_url := none }

/-- Version row for the C2 witness: a single `deleted` change on a file
whose row is absent entirely. -/
def w2Ver : Version :=
  { id := "v1", project_id := "p1", commit_hash := "deadbeef",
    message := "del", author := "me", created_at := 1,
    file_changes := [{ file_id := "fX", action := .deleted,
                       content_before := some "Y",
                       content_after := none }] }

/-- Concrete state for the C2 witness: no row for `fX` exists. -/
def w2St : DbState :=
  { sessions := [], projects := [w2Proj], files := [], versions := [w2Ver],
    collaborations := [], deployments := [], aiChats := [], templates := [] }

/-- Witness for C2: rolling back the deletion re-creates the absent
file with content `Y`, undeleted. -/
theorem c2_witness :
    ∃ g ∈ (rollbackVersion w2St "p1" "v1" "s1" 7 "nv" "rr").1.files,
      g.id = "fX" ∧ g.is_deleted = false ∧ g.content = "Y" ∧
      g.size = utf16Len "Y" :=
  (c2_rollback_of_deletion w2St w2Proj w2Ver "fX" "Y" [] [] 7 "nv" "rr"
    ⟨by decide, by decide, by decide, by decide, by decide⟩
    (by decide) (by decide) rfl rfl
    (by simp) (by simp) (Or.inr (by decide))).2.1

end AiDev
